import Mathlib

/-!
# MinimalRaceGUI: the race heads-up display

A shallow embedding of `src/states_screens/minimal_race_gui.cpp` and a
verification of its message queue, marker atlas, energy gauge, mini-map
layout, global pass and per-player pass.

Conventions of the embedding:

* `int` values are `Int` (signed overflow is undefined behaviour in C++ and is
  not modelled); `unsigned int` values are `Nat` reduced `% 2^32` wherever the
  code can wrap; integer `/` on `int` is `Int.tdiv` (truncation toward zero).
* `float`/`double` values are exact rationals (`ℚ`); the cast `(int)` is
  `truncToInt`, truncation toward zero. Rounding of the machine formats is not
  modelled.
* a pointer is an `Option` of an identifier, `none` being `NULL`.
* a method that draws returns the list of draw calls it issues, in issue order;
  a method that writes members returns the new object.
-/

namespace STK

/-! ## Geometry and drawing primitives (Irrlicht) -/

/-- The cast `(int)` applied to a floating point value: truncation toward zero. -/
def truncToInt (q : ℚ) : Int := Int.tdiv q.num q.den

/-- Irrlicht `core::position2d<s32>`. -/
structure position2di where
  X : Int
  Y : Int
deriving DecidableEq, Repr

/-- Irrlicht `core::vector2df`. -/
structure vector2df where
  X : ℚ
  Y : ℚ
deriving DecidableEq, Repr

/-- Irrlicht `core::rect<s32>` (`core::recti`). -/
structure recti where
  UpperLeftCorner : position2di
  LowerRightCorner : position2di
deriving DecidableEq, Repr

/-- The four-coordinate constructor `core::rect<s32>(x, y, x2, y2)`. -/
def recti.ofCoords (x y x2 y2 : Int) : recti :=
  { UpperLeftCorner := { X := x, Y := y }, LowerRightCorner := { X := x2, Y := y2 } }

/-- Irrlicht `rect::getWidth`. -/
def recti.getWidth (r : recti) : Int := r.LowerRightCorner.X - r.UpperLeftCorner.X

/-- Irrlicht `rect::getHeight`. -/
def recti.getHeight (r : recti) : Int := r.LowerRightCorner.Y - r.UpperLeftCorner.Y

/-- Irrlicht `video::SColor(alpha, red, green, blue)`. -/
structure SColor where
  alpha : Nat
  red : Nat
  green : Nat
  blue : Nat
deriving DecidableEq, Repr

/-- The fonts of `GUIEngine` the HUD draws with. -/
inductive Font where
  | regular
  | small
  | title
deriving DecidableEq, Repr

/-- The textures the HUD blits. -/
inductive Texture where
  | gauge_empty
  | gauge_full
  | gauge_goal
  | plunger_face
  | music_icon
  | icons_frame
  | marker
  | mini_map
  | powerup_icon
  | kart_icon (kart : Nat)
deriving DecidableEq, Repr

/-- The source rectangle of a blit: either the whole texture
`rect(position2di(0,0), t->getOriginalSize())` or explicit coordinates. -/
inductive SourceRect where
  | whole
  | coords (r : recti)
deriving DecidableEq, Repr

/-- A call into the video driver or a font, as issued by the HUD. The vertex
list of `draw2DVertexPrimitiveList` is the regular polygon that
`createRegularPolygon(n, radius, center, color, ...)` fills in, given by these
four arguments. -/
inductive DrawCall where
  | draw2DImage (texture : Texture) (dest : recti) (source : SourceRect)
      (clip : Option recti) (colors : Option SColor) (useAlpha : Bool)
  | draw2DRectangle (color : SColor) (pos : recti)
  | fontDraw (font : Font) (scale : ℚ) (shadow : Option SColor) (text : String)
      (pos : recti) (color : SColor) (hcenter vcenter : Bool)
  | draw2DVertexPrimitiveList (n : Int) (radius : ℚ) (center : vector2df) (color : SColor)
      (primitiveCount : Int)
deriving DecidableEq, Repr

/-- Conversion of an `int` to `unsigned int`. -/
def toU32 (i : Int) : Nat := (i % 4294967296).toNat

/-- Conversion of an `unsigned int` to `int` (`s32`), two's complement. -/
def toS32 (n : Nat) : Int :=
  if n % 4294967296 < 2147483648 then ((n % 4294967296 : Nat) : Int)
  else ((n % 4294967296 : Nat) : Int) - 4294967296

/-- The text of a font draw call. -/
def DrawCall.textOf : DrawCall → Option String
  | .fontDraw _ _ _ text _ _ _ _ => some text
  | _ => none

/-- The top edge of the rectangle of a font draw call. -/
def DrawCall.lineTop : DrawCall → Option Int
  | .fontDraw _ _ _ _ pos _ _ _ => some pos.UpperLeftCorner.Y
  | _ => none

/-! ## The message queue -/

/-- Identity of a kart object (the address a `const Kart*` points to). -/
abbrev KartId := Nat

/-- Modelled from the spec: the class `TimedMessage` is declared in
`minimal_race_gui.hpp`, which is not among the sources. The fields are the
constructor arguments passed by `addMessage` and the members read by
`drawAllMessages`; `m_expired` is the mark of the spec's "marked expired
immediately after the first decay call following its creation". -/
structure TimedMessage where
  m_message : String
  m_kart : Option KartId
  m_remaining_time : ℚ
  m_font_size : Int
  m_color : SColor
  m_important : Bool
  m_expired : Bool
deriving DecidableEq, Repr

/-- Modelled from the spec: the constructor
`TimedMessage(msg, kart, time, font_size, color, important)`, missing with the
header. The message starts with the full duration and unmarked. -/
def TimedMessage.new (msg : String) (kart : Option KartId) (time : ℚ) (font_size : Int)
    (color : SColor) (important : Bool) : TimedMessage :=
  { m_message := msg, m_kart := kart, m_remaining_time := time, m_font_size := font_size,
    m_color := color, m_important := important, m_expired := false }

/-- Modelled from the spec: `TimedMessage::done(dt)`, missing with the header.
Spec 4.2: "for every message, reduce remaining duration by deltaSeconds if
duration was set positive; a message whose duration was non-positive at
creation is marked expired immediately after the first decay call following
its creation (i.e., it is guaranteed to render for exactly one frame, then be
removed)"; spec 3: "destroyed when remaining duration reaches zero after
decay". The result is the answer of `done` and the message as `done` leaves
it. Only the branch of a positive duration, and the fact that `done` leaves
text, target, size, colour and importance alone, are relied on below. The
branch of a non-positive duration is the spec's sentence and nothing more:
the comments in the source on `cleanupMessages` ("must be called after
drawAllMessages, otherwise messages which are only displayed once will not be
drawn") and on `addMessage` describe a `done` that answers true on its first
call for such a message, and the source does not contain the method that
would decide between the two. -/
def TimedMessage.done (m : TimedMessage) (dt : ℚ) : Bool × TimedMessage :=
  if 0 < m.m_remaining_time then
    (decide (m.m_remaining_time - dt ≤ 0), { m with m_remaining_time := m.m_remaining_time - dt })
  else if m.m_expired then (true, m)
  else (false, { m with m_expired := true })

/-- What of a message never changes while it is queued: everything but the
remaining time and the expiry mark. -/
def TimedMessage.ident (m : TimedMessage) :
    String × Option KartId × Int × SColor × Bool :=
  (m.m_message, m.m_kart, m.m_font_size, m.m_color, m.m_important)

/-- The container `AllMessageType` (`std::vector<TimedMessage>`). -/
abbrev AllMessageType := List TimedMessage

/-- The loop of `MinimalRaceGUI::cleanupMessages`: every message is asked
`done(dt)` once, and erased when the answer is true. -/
def cleanupLoop (dt : ℚ) : AllMessageType → AllMessageType
  | [] => []
  | p :: rest =>
    if (p.done dt).1 then cleanupLoop dt rest
    else (p.done dt).2 :: cleanupLoop dt rest

/-- The texture `m_marker` rendered by `createMarkerTexture`: the dimension
handed to the render-to-texture provider and the draw calls rendered into it. -/
structure MarkerAtlas where
  width : Nat
  height : Nat
  draws : List DrawCall
deriving DecidableEq, Repr

/-- The members of `MinimalRaceGUI` that the embedded methods read or write. -/
structure MinimalRaceGUI where
  m_enabled : Bool
  m_messages : AllMessageType
  m_marker : MarkerAtlas
  m_marker_rendered_size : Int
  m_marker_ai_size : Int
  m_marker_player_size : Int
  m_map_width : Int
  m_map_height : Int
  m_map_left : Int
  m_map_bottom : Int
  m_map_rendered_width : Int
  m_map_rendered_height : Int
  m_max_font_height : Int
  m_small_font_max_height : Int
  m_font_scale : ℚ
  m_lap_width : Int
  m_timer_width : Int
  m_rank_width : Int
  m_string_lap : String
  m_string_rank : String
  m_string_ready : String
  m_string_set : String
  m_string_go : String
deriving DecidableEq, Repr

/-- `MinimalRaceGUI::cleanupMessages(dt)`. -/
def MinimalRaceGUI.cleanupMessages (gui : MinimalRaceGUI) (dt : ℚ) : MinimalRaceGUI :=
  { gui with m_messages := cleanupLoop dt gui.m_messages }

/-- `MinimalRaceGUI::addMessage(msg, kart, time, font_size, color, important)`:
a `push_back` of the constructed message. -/
def MinimalRaceGUI.addMessage (gui : MinimalRaceGUI) (msg : String) (kart : Option KartId)
    (time : ℚ) (font_size : Int) (color : SColor) (important : Bool) : MinimalRaceGUI :=
  { gui with m_messages :=
      gui.m_messages ++ [TimedMessage.new msg kart time font_size color important] }

/-- The loop of `MinimalRaceGUI::drawAllMessages` over the queue, from line
position `y`. -/
def drawAllMessagesLoop (kart : Option KartId) (font : Font) (scale : ℚ)
    (shadow : Option SColor) (x w font_height : Int) : Int → AllMessageType → List DrawCall
  | _, [] => []
  | y, msg :: rest =>
    if !msg.m_important then
      drawAllMessagesLoop kart font scale shadow x w font_height y rest
    else if msg.m_kart.isSome && msg.m_kart != kart then
      drawAllMessagesLoop kart font scale shadow x w font_height y rest
    else
      DrawCall.fontDraw font scale shadow msg.m_message
          (recti.ofCoords (x - Int.tdiv w 2) y (x + Int.tdiv w 2) (y + font_height))
          msg.m_color true true
        :: drawAllMessagesLoop kart font scale shadow x w font_height (y + font_height) rest

/-- State of one `gui::ScalableFont`: its scale and its shadow colour, if the
shadow is on. -/
structure FontState where
  scale : ℚ
  shadow : Option SColor
deriving DecidableEq, Repr

/-- The three fonts owned by `GUIEngine`. -/
structure Fonts where
  regular : FontState
  small : FontState
  title : FontState
deriving DecidableEq, Repr

/-- The state of a font. -/
def Fonts.get (fs : Fonts) : Font → FontState
  | .regular => fs.regular
  | .small => fs.small
  | .title => fs.title

/-- The fonts after one of them is given a new state. -/
def Fonts.set (fs : Fonts) : Font → FontState → Fonts
  | .regular, st => { fs with regular := st }
  | .small, st => { fs with small := st }
  | .title, st => { fs with title := st }

/-- The first line of text of `drawAllMessages`:
`(int)(viewport.UpperLeftCorner.Y + 164*scaling.Y)`. -/
def firstMessageLine (viewport : recti) (scaling : vector2df) : Int :=
  truncToInt ((viewport.UpperLeftCorner.Y : ℚ) + 164 * scaling.Y)

/-- `MinimalRaceGUI::drawAllMessages(kart, viewport, scaling)`. The object is
returned with the draw calls: the method only reads the queue. -/
def MinimalRaceGUI.drawAllMessages (gui : MinimalRaceGUI) (numLocalPlayers : Nat) (fonts : Fonts)
    (kart : Option KartId) (viewport : recti) (scaling : vector2df) :
    MinimalRaceGUI × List DrawCall :=
  let x := Int.tdiv (viewport.LowerRightCorner.X + viewport.UpperLeftCorner.X) 2
  let w := viewport.LowerRightCorner.X - viewport.UpperLeftCorner.X
  let y := firstMessageLine viewport scaling
  let font := if numLocalPlayers > 2 then Font.small else Font.regular
  let font_height :=
    if numLocalPlayers > 2 then gui.m_small_font_max_height else gui.m_max_font_height
  (gui, drawAllMessagesLoop kart font (fonts.get font).scale (fonts.get font).shadow
          x w font_height y gui.m_messages)

/-! ## The marker atlas -/

/-- What `createMarkerTexture` reads of the `KartProperties` of a kart:
`getShape()`, whether `getMinimapIcon()` is set, and `getColor()`. -/
structure KartProperties where
  shape : Int
  hasMinimapIcon : Bool
  color : SColor
deriving DecidableEq, Repr

/-- The loop `while(npower2<num_karts) npower2*=2;` on `unsigned int`, run for
at most `fuel` tests of the condition; `none` when the fuel runs out. -/
def npower2Loop (num_karts : Nat) : Nat → Nat → Option Nat
  | 0, _ => none
  | fuel + 1, npower2 =>
    if npower2 < num_karts then npower2Loop num_karts fuel (npower2 * 2 % 4294967296)
    else some npower2

/-- The body of the loop over the karts in `createMarkerTexture`, for kart
`i`. -/
def markerDraw (m_marker_rendered_size : Int) (kp : KartProperties) (i : Nat) : DrawCall :=
  let radius : Int := (m_marker_rendered_size >>> 1) - 1
  let center : vector2df :=
    { X := (((toU32 (m_marker_rendered_size >>> 1) + i * toU32 m_marker_rendered_size)
              % 4294967296 : Nat) : ℚ),
      Y := ((m_marker_rendered_size >>> 1 : Int) : ℚ) }
  if kp.hasMinimapIcon then
    DrawCall.draw2DImage (Texture.kart_icon i)
      (recti.ofCoords (toS32 (i * toU32 m_marker_rendered_size)) 0
        (toS32 ((i + 1) % 4294967296 * toU32 m_marker_rendered_size)) m_marker_rendered_size)
      SourceRect.whole none none true
  else
    DrawCall.draw2DVertexPrimitiveList kp.shape (radius : ℚ) center kp.color (kp.shape - 2)

/-- `MinimalRaceGUI::createMarkerTexture()`, for `num_karts` karts whose
properties are `kart i`. The result is `none` when the `npower2` loop does not
end (it is given 64 tests, and needs at most 32 when it ends). -/
def createMarkerTexture (m_marker_rendered_size : Int) (num_karts : Nat)
    (kart : Nat → KartProperties) : Option MarkerAtlas :=
  match npower2Loop num_karts 64 1 with
  | none => none
  | some npower2 =>
    some { width := toU32 m_marker_rendered_size * npower2 % 4294967296,
           height := toU32 m_marker_rendered_size,
           draws := (List.range num_karts).map
             (fun i => markerDraw m_marker_rendered_size (kart i) i) }

/-! ## The constructor -/

/-- Lower bound of Euler's number used to evaluate `log`. -/
def expLower : ℚ := 27182818283 / 10000000000

/-- Upper bound of Euler's number used to evaluate `log`. -/
def expUpper : ℚ := 27182818286 / 10000000000

/-- A rational below `e^n`. -/
def expPowLower (n : Int) : ℚ :=
  if 0 ≤ n then expLower ^ n.toNat else (expUpper ^ (-n).toNat)⁻¹

/-- A rational above `e^n`. -/
def expPowUpper (n : Int) : ℚ :=
  if 0 ≤ n then expUpper ^ n.toNat else (expLower ^ (-n).toNat)⁻¹

/-- Decides `x ≤ e^n` from the enclosure of `e^n`: `some true` when `x` is at
most the lower bound, `some false` when `x` is above the upper bound, `none`
when the enclosure cannot tell. -/
def cmpExpPow (x : ℚ) (n : Int) : Option Bool :=
  if x ≤ expPowLower n then some true
  else if expPowUpper n < x then some false
  else none

/-- Searches upward from `n` for the least exponent with `x ≤ e^n`. -/
def ceilLogSearch (x : ℚ) : Nat → Int → Option Int
  | 0, _ => none
  | fuel + 1, n =>
    match cmpExpPow x n with
    | some true => some n
    | some false => ceilLogSearch x fuel (n + 1)
    | none => none

/-- The expression `(int) ceil(1.0 + log(x))` with the natural logarithm `log`
of the C library: one more than the least `n` with `x ≤ e^n`. It is `none`
for `x ≤ 0` (the logarithm is minus infinity or not a number, and the cast is
undefined), and for an `x` outside `(e^-9, e^39]` or too close to a power of
`e` for the enclosure to decide. -/
def ceilOnePlusLog (x : ℚ) : Option Int :=
  if x ≤ 0 then none
  else if cmpExpPow x (-9) = some false then (ceilLogSearch x 48 (-8)).map (fun n => 1 + n)
  else none

/-- The shift `2 << c` on `int`: undefined for a negative count and when the
result does not fit. -/
def shiftLeftTwo (c : Int) : Option Int :=
  if 0 ≤ c ∧ c ≤ 29 then some (2 * 2 ^ c.toNat) else none

/-- The minor race modes named by the HUD (`RaceManager::MinorRaceModeType`). -/
inductive MinorRaceModeType where
  | MINOR_MODE_NORMAL_RACE
  | MINOR_MODE_TIME_TRIAL
  | MINOR_MODE_FOLLOW_LEADER
  | MINOR_MODE_3_STRIKES
deriving DecidableEq, Repr

/-- What the constructor reads from outside the object: the frame size of the
driver, the race manager, the user configuration and the GUI engine. -/
structure RaceSetup where
  frameHeight : Nat
  numLocalPlayers : Nat
  m_width : Int
  m_height : Int
  fontHeight : Int
  smallFontHeight : Int
  textWidth : Font → ℚ → String → Nat
  translate : String → String
  minorMode : MinorRaceModeType
  numLaps : Int
  numberOfKarts : Nat
  kartProperties : Nat → KartProperties

/-- The `switch` of the constructor on the number of local players: the pair
`(m_map_left, m_map_bottom)`. No case matches another count, and the two
members stay uninitialised (`none`). -/
def mapAnchor (numLocalPlayers : Nat) (m_width m_height m_map_width m_map_height : Int) :
    Option (Int × Int) :=
  match numLocalPlayers with
  | 1 => some (10, m_height - 10)
  | 2 => some (10, Int.tdiv m_height 2 + Int.tdiv m_map_height 2)
  | 3 => some (Int.tdiv m_width 2 + 10, m_height - 10)
  | 4 => some (Int.tdiv m_width 2 - Int.tdiv m_map_width 2,
               Int.tdiv m_height 2 + Int.tdiv m_map_height 2)
  | _ => none

/-- The value `2 << ((int) ceil(1.0 + log(base * scaling)))` computed twice by
the constructor, `scaling` being `frame height / 480.0f`. -/
def renderedSize (base : ℚ) (frameHeight : Nat) : Option Int :=
  match ceilOnePlusLog (base * ((frameHeight : ℚ) / 480)) with
  | none => none
  | some c => shiftLeftTwo c

/-- `MinimalRaceGUI::MinimalRaceGUI()`. The result is `none` when a shift is
undefined, when the map position stays uninitialised or when
`createMarkerTexture` does not return. The font scale is set and put back by
the constructor, so the fonts are left as found. -/
def MinimalRaceGUI.new (rs : RaceSetup) : Option MinimalRaceGUI :=
  let scaling : ℚ := (rs.frameHeight : ℚ) / 480
  match renderedSize 32 rs.frameHeight with
  | none => none
  | some m_marker_rendered_size =>
    let m_marker_ai_size := truncToInt (24 * scaling)
    let m_marker_player_size := truncToInt (34 * scaling)
    let m_map_width := truncToInt (200 * scaling)
    let m_map_height := truncToInt (200 * scaling)
    match mapAnchor rs.numLocalPlayers rs.m_width rs.m_height m_map_width m_map_height with
    | none => none
    | some (m_map_left, m_map_bottom) =>
      match renderedSize 128 rs.frameHeight with
      | none => none
      | some map_texture =>
        match createMarkerTexture m_marker_rendered_size rs.numberOfKarts rs.kartProperties with
        | none => none
        | some m_marker =>
          let m_font_scale : ℚ := 1
          let w : Nat :=
            if rs.minorMode = MinorRaceModeType.MINOR_MODE_FOLLOW_LEADER
                ∨ rs.minorMode = MinorRaceModeType.MINOR_MODE_3_STRIKES
                ∨ rs.numLaps > 9 then
              rs.textWidth Font.regular m_font_scale " 99/99"
            else rs.textWidth Font.regular m_font_scale " 9/9"
          some
            { m_enabled := true
              m_messages := []
              m_marker := m_marker
              m_marker_rendered_size := m_marker_rendered_size
              m_marker_ai_size := m_marker_ai_size
              m_marker_player_size := m_marker_player_size
              m_map_width := m_map_width
              m_map_height := m_map_height
              m_map_left := m_map_left
              m_map_bottom := m_map_bottom
              m_map_rendered_width := map_texture
              m_map_rendered_height := map_texture
              m_max_font_height := rs.fontHeight + 10
              m_small_font_max_height := rs.smallFontHeight + 5
              m_font_scale := m_font_scale
              m_lap_width :=
                (rs.textWidth Font.regular m_font_scale (rs.translate "Lap") : Int) + (w : Int)
              m_timer_width := rs.textWidth Font.regular m_font_scale "99:99:99"
              m_rank_width := rs.textWidth Font.regular m_font_scale "9/9"
              m_string_lap := rs.translate "Lap"
              m_string_rank := rs.translate "Rank"
              m_string_ready := rs.translate "Ready!"
              m_string_set := rs.translate "Set!"
              m_string_go := rs.translate "Go!" }

/-! ## The energy gauge -/

/-- The local `state` of `drawEnergyMeter`: the energy as a fraction of
`MAX_NITRO`, clamped to the range from 0 to 1. -/
def energyState (energy MAX_NITRO : ℚ) : ℚ :=
  if energy / MAX_NITRO < 0 then 0 else if energy / MAX_NITRO > 1 then 1 else energy / MAX_NITRO

/-- The gauge height `h` of `drawEnergyMeter`: `(int)(viewport.getHeight()/3)`. -/
def gaugeHeight (viewport : recti) : Int := Int.tdiv viewport.getHeight 3

/-- The top `y` of the gauge of `drawEnergyMeter`:
`viewport.UpperLeftCorner.Y + viewport.getHeight()/2 - h/2`. -/
def gaugeTop (viewport : recti) : Int :=
  viewport.UpperLeftCorner.Y + Int.tdiv viewport.getHeight 2
    - Int.tdiv (gaugeHeight viewport) 2

/-- The local `y1` of the two clipped blits of `drawEnergyMeter`:
`y + (int)(EMPTY_TOP_PIXELS + (h - EMPTY_TOP_PIXELS - EMPTY_BOTTOM_PIXELS) *
(1.0f - fraction))` with `EMPTY_TOP_PIXELS = 4` and `EMPTY_BOTTOM_PIXELS = 3`,
replaced by `y` when `state >= 1.0f`. -/
def gaugeClipTop (y h : Int) (state fraction : ℚ) : Int :=
  if state ≥ 1 then y
  else y + truncToInt ((4 : ℚ) + ((h - 4 - 3 : Int) : ℚ) * (1 - fraction))

/-- `MinimalRaceGUI::drawEnergyMeter(kart, viewport, scaling)`: `energy` is
`kart->getEnergy()`, `MAX_NITRO` the constant of `utils/constants.hpp` (not
among the sources; a positive number, a division by zero is not modelled),
`coinTarget` is `race_manager->getCoinTarget()`. -/
def drawEnergyMeter (energy MAX_NITRO : ℚ) (numLocalPlayers : Nat) (coinTarget : Int)
    (viewport : recti) : List DrawCall :=
  let state : ℚ := energyState energy MAX_NITRO
  let h : Int := gaugeHeight viewport
  let w : Int := Int.tdiv h 4
  let mirrored : Int :=
    if numLocalPlayers ≥ 3 ∧ viewport.UpperLeftCorner.X = 0 then 1 else 0
  let x : Int := if mirrored ≠ 0 then 0 else viewport.LowerRightCorner.X - w
  let y : Int := gaugeTop viewport
  let background : List DrawCall :=
    [DrawCall.draw2DImage Texture.gauge_empty
      (recti.ofCoords (x + mirrored * w) (y + mirrored * h)
        (x + (1 - mirrored) * w) (y + (1 - mirrored) * h))
      (SourceRect.coords (recti.ofCoords 0 0 64 256)) none none true]
  let target : List DrawCall :=
    if coinTarget > 0 then
      let coin_target : ℚ := (coinTarget : ℚ) / MAX_NITRO
      let y1 : Int := gaugeClipTop y h state coin_target
      [DrawCall.draw2DImage Texture.gauge_goal (recti.ofCoords x y (x + w) (y + h))
        (SourceRect.coords (recti.ofCoords 0 0 64 256))
        (some (recti.ofCoords x y1 (x + w) (y + h))) none true]
    else []
  let filling : List DrawCall :=
    if state > 0 then
      let y1 : Int := gaugeClipTop y h state state
      [DrawCall.draw2DImage Texture.gauge_full
        (recti.ofCoords (x + mirrored * w) (if mirrored ≠ 0 then y + h else y)
          (x + (1 - mirrored) * w) (if mirrored ≠ 0 then y else y + h))
        (SourceRect.coords
          (recti.ofCoords 0 (if mirrored ≠ 0 then 256 else 0) 64
            (if mirrored ≠ 0 then 0 else 256)))
        (some (recti.ofCoords x y1 (x + w) (y + h))) none true]
    else []
  background ++ target ++ filling

/-- The clip rectangle of the `gauge_full` blit among some draw calls, if
there is such a blit. -/
def fillClip : List DrawCall → Option recti
  | [] => none
  | DrawCall.draw2DImage Texture.gauge_full _ _ clip _ _ :: _ => clip
  | _ :: rest => fillClip rest

/-- The destination and source rectangles of the `gauge_full` blit among some
draw calls, if there is such a blit with explicit source coordinates. -/
def fillDestSource : List DrawCall → Option (recti × recti)
  | [] => none
  | DrawCall.draw2DImage Texture.gauge_full dest (SourceRect.coords src) _ _ _ :: _ =>
    some (dest, src)
  | _ :: rest => fillDestSource rest

/-- Height of the filled part of the gauge: the vertical extent of the clip
rectangle of the `gauge_full` blit, and 0 when the blit is not drawn. -/
def fillHeight (draws : List DrawCall) : Int :=
  match fillClip draws with
  | some clip => clip.LowerRightCorner.Y - clip.UpperLeftCorner.Y
  | none => 0

/-! ## The global pass -/

/-- Modelled from the spec: the phases of `WorldStatus` (`world_status.hpp` is
not among the sources), in the order of the enumeration; the spec names
"READY, SET, GO" as the window of the banner. -/
inductive Phase where
  | SETUP_PHASE
  | READY_PHASE
  | SET_PHASE
  | GO_PHASE
  | MUSIC_PHASE
  | RACE_PHASE
  | DELAY_FINISH_PHASE
  | RESULT_DISPLAY_PHASE
  | FINISH_PHASE
deriving DecidableEq, Repr

/-- The value of a phase in the enumeration. -/
def Phase.toNat : Phase → Nat
  | .SETUP_PHASE => 0
  | .READY_PHASE => 1
  | .SET_PHASE => 2
  | .GO_PHASE => 3
  | .MUSIC_PHASE => 4
  | .RACE_PHASE => 5
  | .DELAY_FINISH_PHASE => 6
  | .RESULT_DISPLAY_PHASE => 7
  | .FINISH_PHASE => 8

/-- What `drawGlobalMiniMap` reads of a kart of the world. -/
structure WorldKart where
  isEliminated : Bool
  isPlayerController : Bool
  draw_at : vector2df
  color : SColor
deriving DecidableEq, Repr

/-- `MusicInformation`: title and composer of the current music. -/
structure MusicInformation where
  title : String
  composer : String
deriving DecidableEq, Repr

/-- What the draw passes read from outside the object: the world, the race
manager, the user configuration, the music manager, the GUI engine and the C
library. `stack_x` and `stack_y` are the values found in the locals `x`, `y`
of `drawGlobalTimer` when its `switch` matches no case; `kartLap id` is
`getKartsDisplayInfo()[id].lap`. -/
structure World where
  numLocalPlayers : Nat
  m_width : Int
  m_height : Int
  isADialogActive : Bool
  phase : Phase
  isRacePhase : Bool
  shouldDrawTimer : Bool
  timeString : String
  time : ℚ
  minorMode : MinorRaceModeType
  clockStartTime : ℚ
  m_music : Bool
  m_music_credit_time : ℚ
  currentMusic : Option MusicInformation
  translatedBy : String
  textWidth : Font → ℚ → String → Nat
  sin : ℚ → ℚ
  cos : ℚ → ℚ
  isArena : Bool
  numKarts : Nat
  kart : Nat → WorldKart
  stack_x : Int
  stack_y : Int
  displayRank : Bool
  raceHasLaps : Bool
  currentNumKarts : Nat
  numLaps : Int
  kartLap : Nat → Int
  coinTarget : Int
  MAX_NITRO : ℚ

/-- `MinimalRaceGUI::drawGlobalReadySetGo()`. -/
def MinimalRaceGUI.drawGlobalReadySetGo (gui : MinimalRaceGUI) (world : World) (fonts : Fonts) :
    List DrawCall :=
  let pos := recti.ofCoords (world.m_width >>> 1) (world.m_height >>> 1)
    (world.m_width >>> 1) (world.m_height >>> 1)
  let white : SColor := { alpha := 255, red := 255, green := 255, blue := 255 }
  match world.phase with
  | .READY_PHASE =>
    [DrawCall.fontDraw Font.title fonts.title.scale fonts.title.shadow gui.m_string_ready pos white
      true true]
  | .SET_PHASE =>
    [DrawCall.fontDraw Font.title fonts.title.scale fonts.title.shadow gui.m_string_set pos white
      true true]
  | .GO_PHASE =>
    [DrawCall.fontDraw Font.title fonts.title.scale fonts.title.shadow gui.m_string_go pos white
      true true]
  | _ => []

/-- `MinimalRaceGUI::drawGlobalTimer()`. The scale of the font is set to
`m_font_scale` for the draw and put back, so the fonts are left as found. -/
def MinimalRaceGUI.drawGlobalTimer (gui : MinimalRaceGUI) (world : World) (fonts : Fonts) :
    List DrawCall :=
  if !world.shouldDrawTimer then []
  else
    let xy : Int × Int :=
      match world.numLocalPlayers with
      | 1 => (10, 0)
      | 2 => (10, 0)
      | 3 => (world.m_width - gui.m_timer_width - 10, Int.tdiv world.m_height 2)
      | 4 => (Int.tdiv world.m_width 2 - Int.tdiv gui.m_timer_width 2, 0)
      | _ => (world.stack_x, world.stack_y)
    [DrawCall.fontDraw Font.regular gui.m_font_scale fonts.regular.shadow world.timeString
      (recti.ofCoords xy.1 xy.2 world.m_width (xy.2 + 50))
      { alpha := 255, red := 255, green := 255, blue := 255 } false false]

/-- The race time used by `drawGlobalMusicDescription`. -/
def musicRaceTime (world : World) : ℚ :=
  if world.minorMode = MinorRaceModeType.MINOR_MODE_FOLLOW_LEADER then
    world.clockStartTime - world.time
  else world.time

/-- `MinimalRaceGUI::drawGlobalMusicDescription()`. -/
def MinimalRaceGUI.drawGlobalMusicDescription (_gui : MinimalRaceGUI) (world : World)
    (fonts : Fonts) : List DrawCall :=
  if !world.m_music then []
  else
    let race_time : ℚ := musicRaceTime world
    let timeProgression : ℚ := race_time / (world.m_music_credit_time - 2)
    let x_pulse : Int := truncToInt (world.sin (race_time * 9) * 10)
    let y_pulse : Int := truncToInt (world.cos (race_time * 9) * 10)
    let resize : ℚ :=
      if timeProgression < 1 / 10 then timeProgression / (1 / 10)
      else if timeProgression > 9 / 10 then 1 - (timeProgression - 9 / 10) / (1 / 10)
      else 1
    let resize3 : ℚ := resize * resize * resize
    match world.currentMusic with
    | none => []
    | some mi =>
      let thetext : String := "\"" ++ mi.title ++ "\""
      let textWidth0 : Int := world.textWidth Font.regular fonts.regular.scale thetext
      let textWidth20 : Int :=
        if mi.composer ≠ "" then
          world.textWidth Font.regular fonts.regular.scale
            (world.translatedBy ++ " " ++ mi.composer)
        else 0
      let max_text_size : Int := truncToInt ((world.m_width : ℚ) * 2 / 3)
      let textWidth : Int := if textWidth0 > max_text_size then max_text_size else textWidth0
      let textWidth2 : Int := if textWidth20 > max_text_size then max_text_size else textWidth20
      let ICON_SIZE : Int := 64
      let y : Int := world.m_height - 80
      let noteX : Int := Int.tdiv world.m_width 2 - Int.tdiv (max textWidth textWidth2) 2
        - Int.tdiv ICON_SIZE 2 - 20
      let noteY : Int := y
      let textXFrom : Int := Int.tdiv world.m_width 2 - Int.tdiv (max textWidth textWidth2) 2 + 20
      let textXTo : Int := Int.tdiv world.m_width 2 + Int.tdiv (max textWidth textWidth2) 2 + 20
      let text_y : Int :=
        truncToInt ((world.m_height : ℚ) - 80 * resize3 + 40 * (1 - resize))
      let white : SColor := { alpha := 255, red := 255, green := 255, blue := 255 }
      let byLine : List DrawCall :=
        if mi.composer ≠ "" then
          [DrawCall.fontDraw Font.regular fonts.regular.scale fonts.regular.shadow
            ("by " ++ mi.composer)
            (recti.ofCoords textXFrom (text_y + 40) textXTo (text_y + 40)) white true true]
        else []
      let iconSizeX : Int :=
        truncToInt ((ICON_SIZE : ℚ) * resize + (x_pulse : ℚ) * resize * resize)
      let iconSizeY : Int :=
        truncToInt ((ICON_SIZE : ℚ) * resize + (y_pulse : ℚ) * resize * resize)
      byLine ++
        [DrawCall.fontDraw Font.regular fonts.regular.scale fonts.regular.shadow thetext
          (recti.ofCoords textXFrom text_y textXTo text_y) white true true,
         DrawCall.draw2DImage Texture.music_icon
          (recti.ofCoords (noteX - Int.tdiv iconSizeX 2 + 20)
            (noteY - Int.tdiv iconSizeY 2 + Int.tdiv ICON_SIZE 2)
            (noteX + Int.tdiv iconSizeX 2 + 20)
            (noteY + Int.tdiv iconSizeY 2 + Int.tdiv ICON_SIZE 2))
          SourceRect.whole none none true]

/-- The body of the loop over the karts in `drawGlobalMiniMap`, for kart `i`. -/
def miniMapKartDraws (gui : MinimalRaceGUI) (lower_y : Int) (kart : WorldKart) (i : Nat) :
    List DrawCall :=
  if kart.isEliminated then []
  else
    let source := recti.ofCoords (toS32 (i * toU32 gui.m_marker_rendered_size)) 0
      (toS32 ((i + 1) % 4294967296 * toU32 gui.m_marker_rendered_size))
      gui.m_marker_rendered_size
    let marker_half_size : Int :=
      (if kart.isPlayerController then gui.m_marker_player_size else gui.m_marker_ai_size) >>> 1
    let position := recti.ofCoords
      (gui.m_map_left + truncToInt (kart.draw_at.X - (marker_half_size : ℚ)))
      (lower_y - truncToInt (kart.draw_at.Y + (marker_half_size : ℚ)))
      (gui.m_map_left + truncToInt (kart.draw_at.X + (marker_half_size : ℚ)))
      (lower_y - truncToInt (kart.draw_at.Y - (marker_half_size : ℚ)))
    (if kart.isPlayerController then
      [DrawCall.draw2DImage Texture.icons_frame position SourceRect.whole none
        (some kart.color) true]
     else [])
    ++ [DrawCall.draw2DImage Texture.marker position (SourceRect.coords source) none none true]

/-- `MinimalRaceGUI::drawGlobalMiniMap()`. -/
def MinimalRaceGUI.drawGlobalMiniMap (gui : MinimalRaceGUI) (world : World) : List DrawCall :=
  if world.isArena then []
  else
    let upper_y := gui.m_map_bottom - gui.m_map_height
    let lower_y := gui.m_map_bottom
    DrawCall.draw2DImage Texture.mini_map
        (recti.ofCoords gui.m_map_left upper_y (gui.m_map_left + gui.m_map_width) lower_y)
        SourceRect.whole none none true
      :: (List.range world.numKarts).flatMap
          (fun i => miniMapKartDraws gui lower_y (world.kart i) i)

/-- `MinimalRaceGUI::renderGlobal(dt)`: the object afterwards and the draw
calls issued. -/
def MinimalRaceGUI.renderGlobal (gui : MinimalRaceGUI) (world : World) (fonts : Fonts)
    (dt : ℚ) : MinimalRaceGUI × List DrawCall :=
  let gui1 := gui.cleanupMessages dt
  let quadrant : List DrawCall :=
    if world.numLocalPlayers = 3 ∧ ¬ world.isADialogActive then
      [DrawCall.draw2DRectangle { alpha := 255, red := 0, green := 0, blue := 0 }
        (recti.ofCoords (Int.tdiv world.m_width 2) (Int.tdiv world.m_height 2)
          world.m_width world.m_height)]
    else []
  let banner : List DrawCall :=
    if Phase.READY_PHASE.toNat ≤ world.phase.toNat
        ∧ world.phase.toNat ≤ Phase.GO_PHASE.toNat then
      gui1.drawGlobalReadySetGo world fonts
    else []
  if !world.isRacePhase then (gui1, quadrant ++ banner)
  else if !gui1.m_enabled then (gui1, quadrant ++ banner)
  else
    let timer := gui1.drawGlobalTimer world fonts
    let music : List DrawCall :=
      if world.phase = Phase.GO_PHASE ∨ world.phase = Phase.MUSIC_PHASE then
        gui1.drawGlobalMusicDescription world fonts
      else []
    (gui1, quadrant ++ banner ++ timer ++ music ++ gui1.drawGlobalMiniMap world)

/-! ## The pass of one player -/

/-- The power-up types as far as the HUD tells them apart
(`PowerupManager::PowerupType`): nothing, or one of the collectable items. -/
inductive PowerupType where
  | POWERUP_NOTHING
  | POWERUP_ITEM (item : Nat)
deriving DecidableEq, Repr

/-- What `renderPlayerView` and the methods it calls read of a `Kart`: its
address, the viewport and the scaling of its camera, and its state in the
race. -/
structure Kart where
  id : KartId
  viewport : recti
  scaling : vector2df
  hasViewBlockedByPlunger : Bool
  powerupType : PowerupType
  numPowerup : Int
  energy : ℚ
  hasFinishedRace : Bool
  position : Int
  worldKartId : Nat
deriving DecidableEq, Repr

/-- The text `sprintf(str, "%d/%d", a, b)` writes. -/
def formatPair (a b : Int) : String := toString a ++ "/" ++ toString b

/-- The loop of `drawPowerupIcons`: icons `i`, `i+1`, ... up to `n - 1`, given
as the number of icons still to draw. -/
def powerupIconLoop (x1 y1 nSize itemSpacing : Int) : Nat → Int → List DrawCall
  | 0, _ => []
  | remaining + 1, i =>
    let x2 : Int := x1 + i * itemSpacing
    DrawCall.draw2DImage Texture.powerup_icon
        (recti.ofCoords x2 y1 (x2 + nSize) (y1 + nSize)) SourceRect.whole none none true
      :: powerupIconLoop x1 y1 nSize itemSpacing remaining (i + 1)

/-- `MinimalRaceGUI::drawPowerupIcons(kart, viewport, scaling)`. -/
def drawPowerupIcons (kart : Kart) (viewport : recti) (scaling : vector2df) : List DrawCall :=
  if kart.powerupType = PowerupType.POWERUP_NOTHING then []
  else
    let n0 : Int := kart.numPowerup
    if n0 < 1 then []
    else
      let n : Int := if n0 > 5 then 5 else n0
      let nSize : Int := truncToInt (64 * min scaling.X scaling.Y)
      let itemSpacing : Int := truncToInt (min scaling.X scaling.Y * 30)
      let x1 : Int := viewport.UpperLeftCorner.X + Int.tdiv viewport.getWidth 2
        - Int.tdiv (n * itemSpacing) 2
      let y1 : Int := viewport.UpperLeftCorner.Y + truncToInt (20 * scaling.Y)
      powerupIconLoop x1 y1 nSize itemSpacing n.toNat 0

/-- `MinimalRaceGUI::drawRankLap(info, kart, viewport)`: the fonts afterwards
and the draw calls issued. -/
def MinimalRaceGUI.drawRankLap (gui : MinimalRaceGUI) (world : World) (fonts : Fonts)
    (kart : Kart) (viewport : recti) : Fonts × List DrawCall :=
  if kart.hasFinishedRace then (fonts, [])
  else
    let font : Font := if world.numLocalPlayers > 2 then Font.small else Font.regular
    let scale : ℚ := (fonts.get font).scale
    let black : SColor := { alpha := 255, red := 0, green := 0, blue := 0 }
    let color : SColor := { alpha := 255, red := 255, green := 255, blue := 255 }
    let rank : List DrawCall :=
      if world.displayRank then
        let left : Int :=
          if viewport.LowerRightCorner.X < world.m_width then 10
          else viewport.LowerRightCorner.X - gui.m_rank_width - 10
        [DrawCall.fontDraw font gui.m_font_scale (some black)
          (formatPair kart.position (toS32 world.currentNumKarts))
          (recti.ofCoords left viewport.UpperLeftCorner.Y viewport.LowerRightCorner.X
            (viewport.UpperLeftCorner.Y + 50))
          color false false]
      else []
    let laps : List DrawCall :=
      if world.raceHasLaps then
        let lap : Int := world.kartLap kart.worldKartId
        if lap ≥ 0 then
          let left : Int :=
            if viewport.LowerRightCorner.X < world.m_width then 10
            else viewport.LowerRightCorner.X - gui.m_lap_width - 10
          [DrawCall.fontDraw font gui.m_font_scale (some black)
            (gui.m_string_lap ++ " " ++ formatPair (lap + 1) world.numLaps)
            (recti.ofCoords left (viewport.LowerRightCorner.Y - 60) viewport.LowerRightCorner.X
              viewport.LowerRightCorner.Y)
            color false false]
        else []
      else []
    (fonts.set font { scale := scale, shadow := none }, rank ++ laps)

/-- The blit of the plunger face in `renderPlayerView`. -/
def plungerDraw (viewport : recti) : DrawCall :=
  let offset_y : Int := viewport.UpperLeftCorner.Y
  let screen_width : Int := viewport.LowerRightCorner.X - viewport.UpperLeftCorner.X
  let plunger_size : Int := viewport.LowerRightCorner.Y - viewport.UpperLeftCorner.Y
  let plunger_x : Int := viewport.UpperLeftCorner.X + Int.tdiv screen_width 2
    - Int.tdiv plunger_size 2
  DrawCall.draw2DImage Texture.plunger_face
    (recti.ofCoords plunger_x offset_y (plunger_x + plunger_size) (offset_y + plunger_size))
    SourceRect.whole none none true

/-- The scaling `renderPlayerView` hands on: the scaling of the camera times
`viewport.getWidth()/800.0f`. -/
def viewScaling (kart : Kart) : vector2df :=
  { X := kart.scaling.X * ((kart.viewport.getWidth : ℚ) / 800),
    Y := kart.scaling.Y * ((kart.viewport.getWidth : ℚ) / 800) }

/-- `MinimalRaceGUI::renderPlayerView(kart)`: the fonts afterwards and the
draw calls issued. -/
def MinimalRaceGUI.renderPlayerView (gui : MinimalRaceGUI) (world : World) (fonts : Fonts)
    (kart : Kart) : Fonts × List DrawCall :=
  if !gui.m_enabled then (fonts, [])
  else
    let viewport := kart.viewport
    let scaling := viewScaling kart
    let plunger : List DrawCall :=
      if kart.hasViewBlockedByPlunger then [plungerDraw viewport] else []
    let messages : List DrawCall :=
      (gui.drawAllMessages world.numLocalPlayers fonts (some kart.id) viewport scaling).2
    if !world.isRacePhase then (fonts, plunger ++ messages)
    else
      let powerups := drawPowerupIcons kart viewport scaling
      let energy :=
        drawEnergyMeter kart.energy world.MAX_NITRO world.numLocalPlayers world.coinTarget
          viewport
      let rankLap := gui.drawRankLap world fonts kart viewport
      (rankLap.1, plunger ++ messages ++ powerups ++ energy ++ rankLap.2)

/-- Whether a draw call is a `draw2DRectangle`. -/
def DrawCall.isRectangle : DrawCall → Bool
  | .draw2DRectangle _ _ => true
  | _ => false

/-- One call on the message queue made from outside the draw passes. -/
inductive QueueOp where
  | add (msg : String) (kart : Option KartId) (time : ℚ) (font_size : Int) (color : SColor)
      (important : Bool)
  | cleanup (dt : ℚ)
deriving DecidableEq, Repr

/-- The object after one queue call. -/
def MinimalRaceGUI.applyOp (gui : MinimalRaceGUI) : QueueOp → MinimalRaceGUI
  | .add msg kart time font_size color important =>
    gui.addMessage msg kart time font_size color important
  | .cleanup dt => gui.cleanupMessages dt

/-- The object after a sequence of queue calls, first call first. -/
def MinimalRaceGUI.run (gui : MinimalRaceGUI) (ops : List QueueOp) : MinimalRaceGUI :=
  ops.foldl MinimalRaceGUI.applyOp gui

/-- The messages a sequence of queue calls adds, in the order of the calls. -/
def addedMessages : List QueueOp → List TimedMessage
  | [] => []
  | .add msg kart time font_size color important :: ops =>
    TimedMessage.new msg kart time font_size color important :: addedMessages ops
  | .cleanup _ :: ops => addedMessages ops

/-- The filter of `drawAllMessages` for the view of kart `k`: the message is
important, and is a broadcast or is addressed to `k`. -/
def shownTo (k : KartId) (m : TimedMessage) : Bool :=
  m.m_important && (m.m_kart == none || m.m_kart == some k)

/-- A sequence of `cleanupMessages` calls, one per step. -/
def MinimalRaceGUI.cleanupAll (gui : MinimalRaceGUI) (steps : List ℚ) : MinimalRaceGUI :=
  steps.foldl MinimalRaceGUI.cleanupMessages gui

/-! ## Concrete inputs -/

/-- A race of five karts without minimap icons, with 20 and 14 pixel fonts and
10 pixels per character of text, on a given screen. -/
def exampleSetup (numLocalPlayers : Nat) (m_width m_height : Int) (frameHeight : Nat) :
    RaceSetup :=
  { frameHeight := frameHeight
    numLocalPlayers := numLocalPlayers
    m_width := m_width
    m_height := m_height
    fontHeight := 20
    smallFontHeight := 14
    textWidth := fun _ _ text => 10 * text.length
    translate := fun text => text
    minorMode := MinorRaceModeType.MINOR_MODE_NORMAL_RACE
    numLaps := 3
    numberOfKarts := 5
    kartProperties := fun _ =>
      { shape := 3, hasMinimapIcon := false,
        color := { alpha := 255, red := 255, green := 0, blue := 0 } } }

/-- The object the constructor builds for one local player on a 640x480
screen from `exampleSetup`. -/
def exampleGUI : MinimalRaceGUI :=
  { m_enabled := true
    m_messages := []
    m_marker :=
      { width := 512, height := 64,
        draws := (List.range 5).map (fun i =>
          DrawCall.draw2DVertexPrimitiveList 3 31 { X := 32 + 64 * (i : ℚ), Y := 32 }
            { alpha := 255, red := 255, green := 0, blue := 0 } 1) }
    m_marker_rendered_size := 64
    m_marker_ai_size := 24
    m_marker_player_size := 34
    m_map_width := 200
    m_map_height := 200
    m_map_left := 10
    m_map_bottom := 470
    m_map_rendered_width := 128
    m_map_rendered_height := 128
    m_max_font_height := 30
    m_small_font_max_height := 19
    m_font_scale := 1
    m_lap_width := 70
    m_timer_width := 80
    m_rank_width := 30
    m_string_lap := "Lap"
    m_string_rank := "Rank"
    m_string_ready := "Ready!"
    m_string_set := "Set!"
    m_string_go := "Go!" }

/-- Fonts at scale 1 without shadow. -/
def exampleFonts : Fonts :=
  { regular := { scale := 1, shadow := none }
    small := { scale := 1, shadow := none }
    title := { scale := 1, shadow := none } }

/-- White, the default colour of a message. -/
def white : SColor := { alpha := 255, red := 255, green := 255, blue := 255 }

/-- Two messages for everybody with a `cleanupMessages` call between them. -/
def exampleOps : List QueueOp :=
  [QueueOp.add "A" none 2 0 white true, QueueOp.cleanup (1 / 60),
   QueueOp.add "B" none 2 0 white true]

/-- A world in its race phase on a track with a mini-map, with two karts, the
first driven by a player. -/
def exampleWorld (numLocalPlayers : Nat) (m_width m_height : Int) : World :=
  { numLocalPlayers := numLocalPlayers
    m_width := m_width
    m_height := m_height
    isADialogActive := false
    phase := Phase.RACE_PHASE
    isRacePhase := true
    shouldDrawTimer := true
    timeString := "00:12:34"
    time := 12
    minorMode := MinorRaceModeType.MINOR_MODE_NORMAL_RACE
    clockStartTime := 0
    m_music := true
    m_music_credit_time := 10
    currentMusic := none
    translatedBy := "by"
    textWidth := fun _ _ text => 10 * text.length
    sin := fun _ => 0
    cos := fun _ => 1
    isArena := false
    numKarts := 2
    kart := fun i =>
      { isEliminated := false, isPlayerController := decide (i = 0),
        draw_at := { X := 50, Y := 50 },
        color := { alpha := 255, red := 255, green := 0, blue := 0 } }
    stack_x := 0
    stack_y := 0
    displayRank := true
    raceHasLaps := true
    currentNumKarts := 2
    numLaps := 3
    kartLap := fun _ => 0
    coinTarget := 0
    MAX_NITRO := 16 }

/-- A kart in first position with one power-up, in a viewport that is the
whole 800x600 screen. -/
def exampleKart : Kart :=
  { id := 0
    viewport := recti.ofCoords 0 0 800 600
    scaling := { X := 1, Y := 1 }
    hasViewBlockedByPlunger := false
    powerupType := PowerupType.POWERUP_ITEM 1
    numPowerup := 1
    energy := 8
    hasFinishedRace := false
    position := 1
    worldKartId := 0 }

/-- The claim "`s` is the smallest power of two that is greater than or equal
to `b`", in the words of the specification. -/
def IsSmallestPowerOfTwoAtLeast (s : Int) (b : ℚ) : Prop :=
  (∃ k : Nat, s = 2 ^ k) ∧ b ≤ (s : ℚ) ∧ ∀ k : Nat, b ≤ (2 : ℚ) ^ k → (s : ℚ) ≤ (2 : ℚ) ^ k

/-! ## Theorems: the message queue -/

theorem done_ident (m : TimedMessage) (dt : ℚ) : (m.done dt).2.ident = m.ident := by
  unfold TimedMessage.done
  split_ifs <;> rfl

theorem cleanupLoop_append (dt : ℚ) (a b : AllMessageType) :
    cleanupLoop dt (a ++ b) = cleanupLoop dt a ++ cleanupLoop dt b := by
  induction a with
  | nil => rfl
  | cons p rest ih =>
    simp only [List.cons_append, cleanupLoop]
    split_ifs <;> simp [ih]

theorem cleanupLoop_ident_sublist (dt : ℚ) (q : AllMessageType) :
    ((cleanupLoop dt q).map TimedMessage.ident).Sublist (q.map TimedMessage.ident) := by
  induction q with
  | nil => simp [cleanupLoop]
  | cons p rest ih =>
    simp only [cleanupLoop, List.map_cons]
    split_ifs
    · exact ih.cons _
    · rw [List.map_cons, done_ident]
      exact ih.cons₂ _

theorem run_ident_sublist (ops : List QueueOp) (gui : MinimalRaceGUI) :
    ((gui.run ops).m_messages.map TimedMessage.ident).Sublist
      ((gui.m_messages ++ addedMessages ops).map TimedMessage.ident) := by
  induction ops generalizing gui with
  | nil => simp [MinimalRaceGUI.run, addedMessages]
  | cons op ops ih =>
    have h := ih (gui.applyOp op)
    have hrun : gui.run (op :: ops) = (gui.applyOp op).run ops := rfl
    rw [hrun]
    refine h.trans ?_
    cases op with
    | add msg kart time font_size color important =>
      simp [MinimalRaceGUI.applyOp, MinimalRaceGUI.addMessage, addedMessages]
    | cleanup dt =>
      simp only [MinimalRaceGUI.applyOp, MinimalRaceGUI.cleanupMessages, addedMessages,
        List.map_append]
      exact (cleanupLoop_ident_sublist dt gui.m_messages).append (List.Sublist.refl _)

theorem drawLoop_eq_enum (kart : KartId) (font : Font) (scale : ℚ) (shadow : Option SColor)
    (x w fh y0 : Int) (q : AllMessageType) (n : Nat) :
    drawAllMessagesLoop (some kart) font scale shadow x w fh (y0 + n * fh) q =
      ((q.filter (shownTo kart)).enumFrom n).map (fun jm =>
        DrawCall.fontDraw font scale shadow jm.2.m_message
          (recti.ofCoords (x - Int.tdiv w 2) (y0 + jm.1 * fh) (x + Int.tdiv w 2)
            (y0 + jm.1 * fh + fh))
          jm.2.m_color true true) := by
  induction q generalizing n with
  | nil => simp [drawAllMessagesLoop]
  | cons m rest ih =>
    have hstep : y0 + (n : Int) * fh + fh = y0 + ((n + 1 : Nat) : Int) * fh := by
      push_cast; ring
    unfold drawAllMessagesLoop
    by_cases hi : m.m_important = true
    · by_cases hk : m.m_kart = none ∨ m.m_kart = some kart
      · have hs : shownTo kart m = true := by
          rcases hk with hk | hk <;> simp [shownTo, hi, hk]
        have hc : (m.m_kart.isSome && m.m_kart != some kart) = false := by
          rcases hk with hk | hk <;> simp [hk]
        simp only [hi, hc, List.filter_cons, hs, List.enumFrom_cons, List.map_cons]
        simp only [Bool.not_true, Bool.false_eq_true, if_false, if_true]
        rw [hstep, ih (n + 1)]
        simp [List.enumFrom_cons, hstep]
      · have hs : shownTo kart m = false := by
          push_neg at hk
          simp [shownTo, hk.1, hk.2]
        have hc : (m.m_kart.isSome && m.m_kart != some kart) = true := by
          push_neg at hk
          cases hm : m.m_kart with
          | none => exact absurd hm hk.1
          | some j =>
            have : j ≠ kart := fun e => hk.2 (by rw [hm, e])
            simp [this]
        simp only [hi, hc, List.filter_cons, hs]
        simp only [Bool.not_true, Bool.false_eq_true, if_false, if_true]
        exact ih n
    · have hi' : m.m_important = false := by simpa using hi
      have hs : shownTo kart m = false := by simp [shownTo, hi']
      simp only [hi', List.filter_cons, hs]
      simp only [Bool.not_false, if_true, Bool.false_eq_true, if_false]
      exact ih n

theorem truncToInt_of_nonneg {q : ℚ} (hq : 0 ≤ q) : truncToInt q = ⌊q⌋ := by
  unfold truncToInt
  rw [Int.tdiv_eq_ediv (Rat.num_nonneg.mpr hq) (Int.ofNat_nonneg _), Rat.floor_def]

theorem truncToInt_int_add {t : Int} {q : ℚ} (ht : 0 ≤ t) (hq : 0 ≤ q) :
    truncToInt ((t : ℚ) + q) = t + truncToInt q := by
  have ht' : (0 : ℚ) ≤ (t : ℚ) := by exact_mod_cast ht
  rw [truncToInt_of_nonneg (add_nonneg ht' hq), truncToInt_of_nonneg hq, Int.floor_int_add]

theorem cleanupAll_messages (steps : List ℚ) (gui : MinimalRaceGUI) :
    (gui.cleanupAll steps).m_messages =
      steps.foldl (fun q dt => cleanupLoop dt q) gui.m_messages := by
  induction steps generalizing gui with
  | nil => rfl
  | cons dt rest ih =>
    have h : gui.cleanupAll (dt :: rest) = (gui.cleanupMessages dt).cleanupAll rest := rfl
    rw [h, ih]
    rfl

theorem foldl_cleanupLoop_append (steps : List ℚ) (a b : AllMessageType) :
    steps.foldl (fun q dt => cleanupLoop dt q) (a ++ b) =
      steps.foldl (fun q dt => cleanupLoop dt q) a ++
        steps.foldl (fun q dt => cleanupLoop dt q) b := by
  induction steps generalizing a b with
  | nil => rfl
  | cons dt rest ih =>
    simp only [List.foldl_cons, cleanupLoop_append, ih]

theorem foldl_cleanupLoop_nil (steps : List ℚ) :
    steps.foldl (fun q dt => cleanupLoop dt q) [] = [] := by
  induction steps with
  | nil => rfl
  | cons dt rest ih => simpa [cleanupLoop] using ih

theorem foldl_cleanupLoop_timed (steps : List ℚ) (m : TimedMessage)
    (hpos : 0 < m.m_remaining_time) (hsteps : ∀ dt ∈ steps, 0 ≤ dt) :
    steps.foldl (fun q dt => cleanupLoop dt q) [m] =
      if steps.sum < m.m_remaining_time then
        [{ m with m_remaining_time := m.m_remaining_time - steps.sum }]
      else [] := by
  induction steps generalizing m with
  | nil => simp [hpos]
  | cons dt rest ih =>
    have hdt : 0 ≤ dt := hsteps dt (List.mem_cons_self _ _)
    have hrest : ∀ d ∈ rest, 0 ≤ d := fun d hd => hsteps d (List.mem_cons_of_mem _ hd)
    have hsum : 0 ≤ rest.sum := List.sum_nonneg hrest
    simp only [List.foldl_cons, List.sum_cons]
    by_cases hle : m.m_remaining_time - dt ≤ 0
    · have h1 : cleanupLoop dt [m] = [] := by
        simp [cleanupLoop, TimedMessage.done, hpos, hle]
      rw [h1, foldl_cleanupLoop_nil, if_neg]
      linarith
    · have hgt : 0 < m.m_remaining_time - dt := lt_of_not_le hle
      have h1 : cleanupLoop dt [m] =
          [{ m with m_remaining_time := m.m_remaining_time - dt }] := by
        simp [cleanupLoop, TimedMessage.done, hpos, hle]
      rw [h1, ih _ hgt hrest]
      by_cases hlt : rest.sum < m.m_remaining_time - dt
      · have hlt' : dt + rest.sum < m.m_remaining_time := by linarith
        simp only [hlt, hlt', if_true]
        congr 2
        ring
      · have hlt' : ¬ (dt + rest.sum < m.m_remaining_time) := by
          intro h
          exact hlt (by linarith)
        simp only [hlt, hlt', if_false]

theorem filterMap_some {α β : Type} (f : α → β) (l : List α) :
    l.filterMap (fun a => some (f a)) = l.map f := by
  induction l with
  | nil => rfl
  | cons a l ih => simp [List.filterMap_cons, ih]

theorem enumFrom_pairwise_fst {α : Type} (l : List α) (n : Nat) :
    (List.enumFrom n l).Pairwise (fun a b => a.1 < b.1) := by
  induction l generalizing n with
  | nil => simp
  | cons a l ih =>
    rw [List.enumFrom_cons, List.pairwise_cons]
    refine ⟨fun b hb => ?_, ih (n + 1)⟩
    have := List.le_fst_of_mem_enumFrom hb
    simp only
    omega

/-- The draw calls of `drawAllMessages` for the view of kart `k`, as the
enumeration of the messages that pass the filter. -/
theorem drawAllMessages_eq_enum (gui : MinimalRaceGUI) (numLocalPlayers : Nat) (fonts : Fonts)
    (k : KartId) (viewport : recti) (scaling : vector2df) :
    (gui.drawAllMessages numLocalPlayers fonts (some k) viewport scaling).2 =
      ((gui.m_messages.filter (shownTo k)).enum).map (fun jm =>
        DrawCall.fontDraw (if numLocalPlayers > 2 then Font.small else Font.regular)
          (fonts.get (if numLocalPlayers > 2 then Font.small else Font.regular)).scale
          (fonts.get (if numLocalPlayers > 2 then Font.small else Font.regular)).shadow
          jm.2.m_message
          (recti.ofCoords
            (Int.tdiv (viewport.LowerRightCorner.X + viewport.UpperLeftCorner.X) 2
              - Int.tdiv (viewport.LowerRightCorner.X - viewport.UpperLeftCorner.X) 2)
            (firstMessageLine viewport scaling + jm.1 *
              (if numLocalPlayers > 2 then gui.m_small_font_max_height
                else gui.m_max_font_height))
            (Int.tdiv (viewport.LowerRightCorner.X + viewport.UpperLeftCorner.X) 2
              + Int.tdiv (viewport.LowerRightCorner.X - viewport.UpperLeftCorner.X) 2)
            (firstMessageLine viewport scaling + jm.1 *
              (if numLocalPlayers > 2 then gui.m_small_font_max_height
                else gui.m_max_font_height)
              + (if numLocalPlayers > 2 then gui.m_small_font_max_height
                else gui.m_max_font_height)))
          jm.2.m_color true true) := by
  have h := drawLoop_eq_enum k (if numLocalPlayers > 2 then Font.small else Font.regular)
    (fonts.get (if numLocalPlayers > 2 then Font.small else Font.regular)).scale
    (fonts.get (if numLocalPlayers > 2 then Font.small else Font.regular)).shadow
    (Int.tdiv (viewport.LowerRightCorner.X + viewport.UpperLeftCorner.X) 2)
    (viewport.LowerRightCorner.X - viewport.UpperLeftCorner.X)
    (if numLocalPlayers > 2 then gui.m_small_font_max_height else gui.m_max_font_height)
    (firstMessageLine viewport scaling) gui.m_messages 0
  simp only [Nat.cast_zero, zero_mul, add_zero] at h
  simp only [MinimalRaceGUI.drawAllMessages, h, List.enum]

/-- The texts `drawAllMessages` draws for the view of kart `k`, in draw order:
the texts of the queued messages that pass the filter, in queue order. -/
theorem drawAllMessages_texts (gui : MinimalRaceGUI) (numLocalPlayers : Nat) (fonts : Fonts)
    (k : KartId) (viewport : recti) (scaling : vector2df) :
    (gui.drawAllMessages numLocalPlayers fonts (some k) viewport scaling).2.filterMap
        DrawCall.textOf
      = (gui.m_messages.filter (shownTo k)).map (fun m => m.m_message) := by
  rw [drawAllMessages_eq_enum, List.filterMap_map]
  simp only [Function.comp_def, DrawCall.textOf]
  rw [filterMap_some]
  conv_rhs => rw [← List.enum_map_snd (List.filter (shownTo k) gui.m_messages)]
  rw [List.map_map]
  rfl

/-! ### C1 – C5 -/

/-- C1. Insertion order is preserved. After any interleaving of `addMessage`
and `cleanupMessages` calls the queue is, message for message, a subsequence
in insertion order of the messages it started with followed by the messages
added; `drawAllMessages` draws the messages that pass its filter in queue
order; and with a positive line height the drawn lines have strictly
increasing `y`, so an earlier message is drawn above a later one. -/
theorem message_order_preserved (gui : MinimalRaceGUI) (ops : List QueueOp)
    (numLocalPlayers : Nat) (fonts : Fonts) (k : KartId) (viewport : recti)
    (scaling : vector2df) :
    ((gui.run ops).m_messages.map TimedMessage.ident).Sublist
        ((gui.m_messages ++ addedMessages ops).map TimedMessage.ident)
    ∧ (((gui.run ops).drawAllMessages numLocalPlayers fonts (some k) viewport scaling).2.filterMap
          DrawCall.textOf)
        = (((gui.run ops).m_messages.filter (shownTo k)).map (fun m => m.m_message))
    ∧ ((0 : Int) < (if numLocalPlayers > 2 then (gui.run ops).m_small_font_max_height
                    else (gui.run ops).m_max_font_height) →
        ((((gui.run ops).drawAllMessages numLocalPlayers fonts (some k) viewport
            scaling).2.filterMap DrawCall.lineTop).Pairwise (fun a b => a < b))) := by
  refine ⟨run_ident_sublist ops gui, drawAllMessages_texts _ _ _ _ _ _, ?_⟩
  · intro hfh
    rw [drawAllMessages_eq_enum, List.filterMap_map]
    simp only [Function.comp_def, DrawCall.lineTop, recti.ofCoords]
    rw [filterMap_some, List.pairwise_map]
    refine (enumFrom_pairwise_fst ((gui.run ops).m_messages.filter (shownTo k)) 0).imp ?_
    intro a b hab
    have : (a.1 : Int) < b.1 := by exact_mod_cast hab
    nlinarith

/-- Witness of C1: messages "A" and "B" on a 640x480 screen. -/
theorem message_order_preserved_witness :
    (0 : Int) < (if 1 > 2 then (exampleGUI.run exampleOps).m_small_font_max_height
                  else (exampleGUI.run exampleOps).m_max_font_height)
    ∧ ((((exampleGUI.run exampleOps).drawAllMessages 1 exampleFonts (some 0)
          (recti.ofCoords 0 0 640 480) { X := 1, Y := 1 }).2.filterMap
          DrawCall.lineTop).Pairwise (fun a b => a < b)) :=
  ⟨by decide!,
   (message_order_preserved exampleGUI exampleOps 1 exampleFonts 0
      (recti.ofCoords 0 0 640 480) { X := 1, Y := 1 }).2.2 (by decide!)⟩

/-- C2 (on the spec-modelled `TimedMessage::done`). A message added with a
positive duration `D` and then aged by `cleanupMessages` calls with
non-negative steps is still queued, in its place after the survivors of the
earlier messages and with `D` minus the steps as remaining time, exactly while
the steps sum to less than `D`; once they sum to `D` or more it is gone. -/
theorem timed_message_expiry (gui : MinimalRaceGUI) (msg : String) (kart : Option KartId)
    (D : ℚ) (font_size : Int) (color : SColor) (important : Bool) (steps : List ℚ)
    (hD : 0 < D) (hsteps : ∀ dt ∈ steps, 0 ≤ dt) :
    ((gui.addMessage msg kart D font_size color important).cleanupAll steps).m_messages =
      (gui.cleanupAll steps).m_messages ++
        (if steps.sum < D then
          [{ TimedMessage.new msg kart D font_size color important with
              m_remaining_time := D - steps.sum }]
        else []) := by
  rw [cleanupAll_messages, cleanupAll_messages]
  simp only [MinimalRaceGUI.addMessage]
  rw [foldl_cleanupLoop_append,
    foldl_cleanupLoop_timed steps (TimedMessage.new msg kart D font_size color important) hD hsteps]
  rfl

/-- Witness of C2: a two second message after three steps of half a second. -/
theorem timed_message_expiry_witness :
    (0 : ℚ) < 2 ∧ (∀ dt ∈ [(1 / 2 : ℚ), 1 / 2, 1 / 2], 0 ≤ dt)
    ∧ ((exampleGUI.addMessage "A" none 2 0 white true).cleanupAll
          [1 / 2, 1 / 2, 1 / 2]).m_messages =
        (exampleGUI.cleanupAll [1 / 2, 1 / 2, 1 / 2]).m_messages ++
          (if [(1 / 2 : ℚ), 1 / 2, 1 / 2].sum < 2 then
            [{ TimedMessage.new "A" none 2 0 white true with
                m_remaining_time := 2 - [(1 / 2 : ℚ), 1 / 2, 1 / 2].sum }]
          else []) :=
  ⟨by norm_num, by intro dt hdt; simp at hdt; rw [hdt]; norm_num,
   timed_message_expiry exampleGUI "A" none 2 0 white true [1 / 2, 1 / 2, 1 / 2] (by norm_num)
     (by intro dt hdt; simp at hdt; rw [hdt]; norm_num)⟩

/-- C4. `addMessage` is a pure append: the queue afterwards is the old queue
followed by the new message, one longer, with every earlier message in its
old position; and `drawAllMessages` returns the object as it found it. -/
theorem addMessage_appends (gui : MinimalRaceGUI) (msg : String) (kart : Option KartId)
    (time : ℚ) (font_size : Int) (color : SColor) (important : Bool)
    (numLocalPlayers : Nat) (fonts : Fonts) (viewer : Option KartId) (viewport : recti)
    (scaling : vector2df) :
    (gui.addMessage msg kart time font_size color important).m_messages =
        gui.m_messages ++ [TimedMessage.new msg kart time font_size color important]
    ∧ (gui.addMessage msg kart time font_size color important).m_messages.length =
        gui.m_messages.length + 1
    ∧ (∀ i, i < gui.m_messages.length →
        (gui.addMessage msg kart time font_size color important).m_messages[i]? =
          gui.m_messages[i]?)
    ∧ (gui.addMessage msg kart time font_size color important).m_messages[gui.m_messages.length]? =
        some (TimedMessage.new msg kart time font_size color important)
    ∧ (gui.drawAllMessages numLocalPlayers fonts viewer viewport scaling).1 = gui := by
  refine ⟨rfl, by simp [MinimalRaceGUI.addMessage], ?_, ?_, rfl⟩
  · intro i hi
    simp only [MinimalRaceGUI.addMessage]
    exact List.getElem?_append_left hi
  · simp [MinimalRaceGUI.addMessage]

/-- C5. In a viewport with a non-negative top edge and a non-negative vertical
scaling, `drawAllMessages` for kart `k` draws exactly the messages that are
important and are broadcast or addressed to `k`, in queue order; the `j`-th
drawn message is written, centered both ways, into the rectangle whose top is
`y0 + j * font_height` and whose bottom is one `font_height` lower, with
`y0 = viewport top + (int)(164 * scaling.Y)`. Filtered messages take no line:
`j` counts drawn messages only. -/
theorem drawAllMessages_lines (gui : MinimalRaceGUI) (numLocalPlayers : Nat) (fonts : Fonts)
    (k : KartId) (viewport : recti) (scaling : vector2df)
    (htop : 0 ≤ viewport.UpperLeftCorner.Y) (hscale : 0 ≤ scaling.Y) :
    (gui.drawAllMessages numLocalPlayers fonts (some k) viewport scaling).2 =
      ((gui.m_messages.filter
          (fun m => m.m_important && (m.m_kart == none || m.m_kart == some k))).enum).map
        (fun jm =>
          DrawCall.fontDraw (if numLocalPlayers > 2 then Font.small else Font.regular)
            (fonts.get (if numLocalPlayers > 2 then Font.small else Font.regular)).scale
            (fonts.get (if numLocalPlayers > 2 then Font.small else Font.regular)).shadow
            jm.2.m_message
            (recti.ofCoords
              (Int.tdiv (viewport.LowerRightCorner.X + viewport.UpperLeftCorner.X) 2
                - Int.tdiv (viewport.LowerRightCorner.X - viewport.UpperLeftCorner.X) 2)
              (viewport.UpperLeftCorner.Y + truncToInt (164 * scaling.Y) + jm.1 *
                (if numLocalPlayers > 2 then gui.m_small_font_max_height
                  else gui.m_max_font_height))
              (Int.tdiv (viewport.LowerRightCorner.X + viewport.UpperLeftCorner.X) 2
                + Int.tdiv (viewport.LowerRightCorner.X - viewport.UpperLeftCorner.X) 2)
              (viewport.UpperLeftCorner.Y + truncToInt (164 * scaling.Y) + jm.1 *
                (if numLocalPlayers > 2 then gui.m_small_font_max_height
                  else gui.m_max_font_height)
                + (if numLocalPlayers > 2 then gui.m_small_font_max_height
                  else gui.m_max_font_height)))
            jm.2.m_color true true) := by
  have hy : firstMessageLine viewport scaling =
      viewport.UpperLeftCorner.Y + truncToInt (164 * scaling.Y) :=
    truncToInt_int_add htop (mul_nonneg (by norm_num) hscale)
  rw [drawAllMessages_eq_enum, hy]
  rfl

/-- Witness of C5: the view of kart 0 on a 640x480 screen. -/
theorem drawAllMessages_lines_witness :
    (0 : Int) ≤ (recti.ofCoords 0 0 640 480).UpperLeftCorner.Y
    ∧ (0 : ℚ) ≤ ({ X := 1, Y := 1 } : vector2df).Y
    ∧ ((exampleGUI.run exampleOps).drawAllMessages 1 exampleFonts (some 0)
          (recti.ofCoords 0 0 640 480) { X := 1, Y := 1 }).2 =
        [DrawCall.fontDraw Font.regular 1 none "A" (recti.ofCoords 0 164 640 194) white
            true true,
         DrawCall.fontDraw Font.regular 1 none "B" (recti.ofCoords 0 194 640 224) white
            true true] := by
  refine ⟨by decide, by decide!, ?_⟩
  rw [drawAllMessages_lines (exampleGUI.run exampleOps) 1 exampleFonts 0
    (recti.ofCoords 0 0 640 480) { X := 1, Y := 1 } (by decide) (by decide!)]
  decide!

/-! ## Theorems: the marker atlas -/

theorem npower2Loop_reaches (n m : Nat) (hm : m = Nat.clog 2 n) (hle : m ≤ 31) :
    ∀ d k fuel, k + d = m → d < fuel → npower2Loop n fuel (2 ^ k) = some (2 ^ m) := by
  intro d
  induction d with
  | zero =>
    intro k fuel hk hf
    obtain ⟨f, rfl⟩ : ∃ f, fuel = f + 1 := ⟨fuel - 1, by omega⟩
    have hkm : k = m := by omega
    subst hkm
    have hn : n ≤ 2 ^ k := by
      rw [Nat.le_pow_iff_clog_le (by norm_num)]
      omega
    simp [npower2Loop, Nat.not_lt.mpr hn]
  | succ d ih =>
    intro k fuel hk hf
    obtain ⟨f, rfl⟩ : ∃ f, fuel = f + 1 := ⟨fuel - 1, by omega⟩
    have hn : 2 ^ k < n := by
      by_contra hcon
      have h1 : n ≤ 2 ^ k := Nat.not_lt.mp hcon
      rw [Nat.le_pow_iff_clog_le (by norm_num)] at h1
      omega
    have hk31 : k + 1 ≤ 31 := by omega
    have hpow : 2 ^ k * 2 % 4294967296 = 2 ^ (k + 1) := by
      have h2 : 2 ^ (k + 1) ≤ 2 ^ 31 := Nat.pow_le_pow_right (by norm_num) hk31
      rw [← pow_succ]
      apply Nat.mod_eq_of_lt
      calc 2 ^ (k + 1) ≤ 2 ^ 31 := h2
        _ < 4294967296 := by norm_num
    simp only [npower2Loop, hn, if_true, hpow]
    exact ih (k + 1) f (by omega) (by omega)

theorem toU32_of_nonneg {i : Int} (h0 : 0 ≤ i) (h1 : i < 4294967296) : (toU32 i : Int) = i := by
  unfold toU32
  rw [Int.emod_eq_of_lt h0 h1, Int.toNat_of_nonneg h0]

/-- C6. For a competitor count `n` from 1 to `2^31` the `npower2` loop of
`createMarkerTexture` ends (32 tests of its condition are enough) with the
smallest power of two that is at least `n`; the atlas is then created
`m_marker_rendered_size * npower2` wide, as that product is computed in
`unsigned int`, and `m_marker_rendered_size` tall, which are the exact product
and size whenever the product is below `2^32`. For 5 competitors `npower2` is
8. -/
theorem marker_atlas_cells (m_marker_rendered_size : Int) (n : Nat) (kart : Nat → KartProperties)
    (h1 : 1 ≤ n) (h2 : n ≤ 2 ^ 31) :
    ∃ k : Nat,
      (∀ fuel, 32 ≤ fuel → npower2Loop n fuel 1 = some (2 ^ k))
      ∧ n ≤ 2 ^ k
      ∧ (∀ j : Nat, n ≤ 2 ^ j → 2 ^ k ≤ 2 ^ j)
      ∧ (∃ atlas, createMarkerTexture m_marker_rendered_size n kart = some atlas
          ∧ atlas.width = toU32 m_marker_rendered_size * 2 ^ k % 4294967296
          ∧ atlas.height = toU32 m_marker_rendered_size
          ∧ (0 ≤ m_marker_rendered_size → m_marker_rendered_size * 2 ^ k < 4294967296 →
              (atlas.width : Int) = m_marker_rendered_size * 2 ^ k
              ∧ (atlas.height : Int) = m_marker_rendered_size))
      ∧ (n = 5 → k = 3) := by
  have hle : Nat.clog 2 n ≤ 31 := (Nat.le_pow_iff_clog_le (by norm_num)).mp h2
  have hloop : ∀ fuel, 32 ≤ fuel → npower2Loop n fuel 1 = some (2 ^ Nat.clog 2 n) := by
    intro fuel hf
    have := npower2Loop_reaches n (Nat.clog 2 n) rfl hle (Nat.clog 2 n) 0 fuel (by omega) (by omega)
    simpa using this
  refine ⟨Nat.clog 2 n, hloop, Nat.le_pow_clog (by norm_num) n, ?_, ?_, ?_⟩
  · intro j hj
    exact Nat.pow_le_pow_right (by norm_num) ((Nat.le_pow_iff_clog_le (by norm_num)).mp hj)
  · refine ⟨{ width := toU32 m_marker_rendered_size * 2 ^ Nat.clog 2 n % 4294967296,
               height := toU32 m_marker_rendered_size,
               draws := (List.range n).map
                 (fun i => markerDraw m_marker_rendered_size (kart i) i) },
      by simp only [createMarkerTexture, hloop 64 (by norm_num)], rfl, rfl, ?_⟩
    intro h0 hlt
    have hpos : (1 : Int) ≤ 2 ^ Nat.clog 2 n := by exact_mod_cast Nat.one_le_two_pow
    have hsize : m_marker_rendered_size < 4294967296 := by nlinarith
    have hu := toU32_of_nonneg h0 hsize
    refine ⟨?_, hu⟩
    have hlt' : toU32 m_marker_rendered_size * 2 ^ Nat.clog 2 n < 4294967296 := by
      have : ((toU32 m_marker_rendered_size * 2 ^ Nat.clog 2 n : Nat) : Int) < 4294967296 := by
        push_cast
        rw [hu]
        exact hlt
      exact_mod_cast this
    simp only
    rw [Nat.mod_eq_of_lt hlt']
    push_cast
    rw [hu]
  · intro h5
    subst h5
    decide!

/-- Witness of C6: five competitors and 64-pixel cells. -/
theorem marker_atlas_cells_witness :
    1 ≤ 5 ∧ 5 ≤ 2 ^ 31 ∧ npower2Loop 5 64 1 = some 8
      ∧ (createMarkerTexture 64 5 (fun _ => ⟨3, false, ⟨255, 0, 0, 0⟩⟩)).map
          (fun a => (a.width, a.height)) = some (512, 64)
      ∧ ∃ k : Nat, k = 3 ∧ ∀ fuel, 32 ≤ fuel → npower2Loop 5 fuel 1 = some (2 ^ k) := by
  refine ⟨by decide, by decide, by decide, by decide, ?_⟩
  obtain ⟨k, hk, -, -, -, h5⟩ :=
    marker_atlas_cells 64 5 (fun _ => ⟨3, false, ⟨255, 0, 0, 0⟩⟩) (by decide) (by decide)
  exact ⟨k, h5 rfl, hk⟩

/-! ## Theorems: the constructor -/

theorem expLower_lt_exp : ((expLower : ℚ) : ℝ) < Real.exp 1 := by
  have h := Real.exp_one_gt_d9
  have e : ((expLower : ℚ) : ℝ) = 2.7182818283 := by
    unfold expLower
    norm_num
  rw [e]
  exact h

theorem exp_lt_expUpper : Real.exp 1 < ((expUpper : ℚ) : ℝ) := by
  have h := Real.exp_one_lt_d9
  have e : ((expUpper : ℚ) : ℝ) = 2.7182818286 := by
    unfold expUpper
    norm_num
  rw [e]
  exact h

theorem expLower_pos : (0 : ℝ) ≤ ((expLower : ℚ) : ℝ) := by
  unfold expLower
  norm_num

theorem exp_natCast_toNat {n : Int} (h : 0 ≤ n) : Real.exp ((n.toNat : ℕ) : ℝ) = Real.exp n := by
  congr 1
  have : ((n.toNat : ℕ) : Int) = n := Int.toNat_of_nonneg h
  exact_mod_cast this

theorem exp_neg_toNat {n : Int} (h : ¬ 0 ≤ n) :
    (Real.exp (((-n).toNat : ℕ) : ℝ))⁻¹ = Real.exp n := by
  rw [← Real.exp_neg]
  congr 1
  have : (((-n).toNat : ℕ) : Int) = -n := Int.toNat_of_nonneg (by omega)
  have h2 : ((((-n).toNat : ℕ) : Int) : ℝ) = ((-n : Int) : ℝ) := by rw [this]
  push_cast at h2
  linarith

theorem expPowLower_le (n : Int) : ((expPowLower n : ℚ) : ℝ) ≤ Real.exp n := by
  unfold expPowLower
  split_ifs with h
  · rw [← exp_natCast_toNat h, ← Real.exp_one_pow]
    push_cast
    exact pow_le_pow_left₀ expLower_pos (le_of_lt expLower_lt_exp) _
  · rw [← exp_neg_toNat h, ← Real.exp_one_pow]
    push_cast
    apply inv_anti₀ (pow_pos (Real.exp_pos 1) _)
    exact pow_le_pow_left₀ (le_of_lt (Real.exp_pos 1)) (le_of_lt exp_lt_expUpper) _

theorem le_expPowUpper (n : Int) : Real.exp n ≤ ((expPowUpper n : ℚ) : ℝ) := by
  unfold expPowUpper
  split_ifs with h
  · rw [← exp_natCast_toNat h, ← Real.exp_one_pow]
    push_cast
    exact pow_le_pow_left₀ (le_of_lt (Real.exp_pos 1)) (le_of_lt exp_lt_expUpper) _
  · rw [← exp_neg_toNat h, ← Real.exp_one_pow]
    push_cast
    have hpos : (0 : ℝ) < ((expLower : ℚ) : ℝ) := by
      unfold expLower
      norm_num
    apply inv_anti₀ (pow_pos hpos _)
    exact pow_le_pow_left₀ expLower_pos (le_of_lt expLower_lt_exp) _

theorem cmpExpPow_true {x : ℚ} {n : Int} (h : cmpExpPow x n = some true) :
    (x : ℝ) ≤ Real.exp n := by
  unfold cmpExpPow at h
  by_cases h1 : x ≤ expPowLower n
  · have : (x : ℝ) ≤ ((expPowLower n : ℚ) : ℝ) := by exact_mod_cast h1
    exact this.trans (expPowLower_le n)
  · rw [if_neg h1] at h
    split_ifs at h
    exact absurd h (by simp)

theorem cmpExpPow_false {x : ℚ} {n : Int} (h : cmpExpPow x n = some false) :
    Real.exp n < (x : ℝ) := by
  unfold cmpExpPow at h
  by_cases h1 : x ≤ expPowLower n
  · rw [if_pos h1] at h
    exact absurd h (by simp)
  · rw [if_neg h1] at h
    by_cases h2 : expPowUpper n < x
    · have : ((expPowUpper n : ℚ) : ℝ) < (x : ℝ) := by exact_mod_cast h2
      exact (le_expPowUpper n).trans_lt this
    · rw [if_neg h2] at h
      exact absurd h (by simp)

theorem ceilLogSearch_some (x : ℚ) :
    ∀ fuel n r, ceilLogSearch x fuel n = some r →
      cmpExpPow x r = some true ∧ (r = n ∨ cmpExpPow x (r - 1) = some false) := by
  intro fuel
  induction fuel with
  | zero =>
    intro n r h
    simp [ceilLogSearch] at h
  | succ f ih =>
    intro n r h
    unfold ceilLogSearch at h
    cases hc : cmpExpPow x n with
    | none => simp [hc] at h
    | some b =>
      cases b with
      | true =>
        simp only [hc, Option.some.injEq] at h
        subst h
        exact ⟨hc, Or.inl rfl⟩
      | false =>
        simp only [hc] at h
        obtain ⟨h1, h2⟩ := ih (n + 1) r h
        refine ⟨h1, Or.inr ?_⟩
        rcases h2 with h2 | h2
        · rw [h2]
          simpa using hc
        · exact h2

/-- The evaluation of `(int) ceil(1.0 + log(x))` agrees with the natural
logarithm of the reals wherever it gives a value. -/
theorem ceilOnePlusLog_sound {x : ℚ} {c : Int} (h : ceilOnePlusLog x = some c) :
    0 < x ∧ ⌈(1 : ℝ) + Real.log (x : ℝ)⌉ = c := by
  unfold ceilOnePlusLog at h
  split_ifs at h with h0 h9
  have hx : 0 < x := lt_of_not_le h0
  have hxr : (0 : ℝ) < (x : ℝ) := by exact_mod_cast hx
  refine ⟨hx, ?_⟩
  cases hs : ceilLogSearch x 48 (-8) with
  | none => simp [hs] at h
  | some r =>
    simp only [hs, Option.map_some', Option.some.injEq] at h
    subst h
    obtain ⟨h1, h2⟩ := ceilLogSearch_some x 48 (-8) r hs
    have hlow : cmpExpPow x (r - 1) = some false := by
      rcases h2 with h2 | h2
      · rw [h2]
        exact h9
      · exact h2
    have hle := cmpExpPow_true h1
    have hlt := cmpExpPow_false hlow
    rw [Int.ceil_eq_iff]
    constructor
    · have := (Real.lt_log_iff_exp_lt hxr).mpr hlt
      push_cast at this ⊢
      linarith
    · have := (Real.log_le_iff_le_exp hxr).mpr hle
      push_cast
      linarith

theorem expPowLower_le_upper (n : Int) : expPowLower n ≤ expPowUpper n := by
  have h := (expPowLower_le n).trans (le_expPowUpper n)
  exact_mod_cast h

theorem cmpExpPow_false_of {x a : ℚ} {m : Int} (h1 : expPowUpper m < a) (h2 : a ≤ x) :
    cmpExpPow x m = some false := by
  have hx : expPowUpper m < x := lt_of_lt_of_le h1 h2
  have hl : ¬ x ≤ expPowLower m := not_le.mpr (lt_of_le_of_lt (expPowLower_le_upper m) hx)
  unfold cmpExpPow
  rw [if_neg hl, if_pos hx]

theorem cmpExpPow_true_of {x b : ℚ} {r : Int} (h1 : x ≤ b) (h2 : b ≤ expPowLower r) :
    cmpExpPow x r = some true := by
  unfold cmpExpPow
  rw [if_pos (le_trans h1 h2)]

theorem ceilLogSearch_eq (x : ℚ) (r : Int) (hr : cmpExpPow x r = some true) :
    ∀ (d : Nat) (n : Int) (fuel : Nat), n + d = r → d < fuel →
      (∀ m, n ≤ m → m < r → cmpExpPow x m = some false) →
      ceilLogSearch x fuel n = some r := by
  intro d
  induction d with
  | zero =>
    intro n fuel hn hf _
    obtain ⟨f, rfl⟩ : ∃ f, fuel = f + 1 := ⟨fuel - 1, by omega⟩
    have : n = r := by simpa using hn
    subst this
    simp [ceilLogSearch, hr]
  | succ d ih =>
    intro n fuel hn hf hall
    obtain ⟨f, rfl⟩ : ∃ f, fuel = f + 1 := ⟨fuel - 1, by omega⟩
    have hlt : n < r := by push_cast at hn; omega
    have hfalse := hall n (le_refl n) hlt
    simp only [ceilLogSearch, hfalse]
    exact ih (n + 1) f (by push_cast at hn ⊢; omega) (by omega)
      (fun m hm1 hm2 => hall m (by omega) hm2)

theorem ceilOnePlusLog_interval (a b : ℚ) (r : Int) (hr9 : -8 ≤ r) (hr : r ≤ 38) (ha : 0 < a)
    (hchk : (List.range (r + 9).toNat).all
      (fun i => decide (expPowUpper ((i : Int) - 9) < a)) = true)
    (hb : b ≤ expPowLower r) (x : ℚ) (hax : a ≤ x) (hxb : x ≤ b) :
    ceilOnePlusLog x = some (1 + r) := by
  have hall : ∀ m : Int, -9 ≤ m → m < r → cmpExpPow x m = some false := by
    intro m hm1 hm2
    rw [List.all_eq_true] at hchk
    have hmem : (m + 9).toNat ∈ List.range (r + 9).toNat := by
      rw [List.mem_range]
      omega
    have := hchk _ hmem
    have hcast : (((m + 9).toNat : Nat) : Int) - 9 = m := by omega
    rw [hcast] at this
    exact cmpExpPow_false_of (of_decide_eq_true this) hax
  have htrue : cmpExpPow x r = some true := cmpExpPow_true_of hxb hb
  have hsearch : ceilLogSearch x 48 (-8) = some r :=
    ceilLogSearch_eq x r htrue (r + 8).toNat (-8) 48 (by omega) (by omega)
      (fun m hm1 hm2 => hall m (by omega) hm2)
  unfold ceilOnePlusLog
  rw [if_neg (not_le.mpr (lt_of_lt_of_le ha hax)), if_pos (hall (-9) (by omega) (by omega)),
    hsearch]
  rfl

theorem renderedSize_interval (A B : Nat) (c : Nat) (hc29 : c ≤ 29) (hA : 0 < A)
    (hchk : (List.range (c + 8)).all
      (fun i => decide (expPowUpper ((i : Int) - 9) < (A : ℚ) / 15)) = true)
    (hb : (B : ℚ) / 15 ≤ expPowLower ((c : Int) - 1)) (h : Nat) (hAh : A ≤ h) (hhB : h ≤ B) :
    renderedSize 32 h = some (2 ^ (c + 1)) := by
  have hA' : (A : ℚ) ≤ (h : ℚ) := by exact_mod_cast hAh
  have hB' : (h : ℚ) ≤ (B : ℚ) := by exact_mod_cast hhB
  have hApos : (0 : ℚ) < (A : ℚ) := by exact_mod_cast hA
  have hr : (((c : Int) - 1) + 9).toNat = c + 8 := by omega
  have hc := ceilOnePlusLog_interval ((A : ℚ) / 15) ((B : ℚ) / 15) ((c : Int) - 1)
    (by omega) (by omega) (by positivity) (by rw [hr]; exact hchk) hb
    (32 * ((h : ℚ) / 480)) (by linarith) (by linarith)
  have hc' : ceilOnePlusLog (32 * ((h : ℚ) / 480)) = some (c : Int) := by
    rw [hc]
    congr 1
    omega
  unfold renderedSize
  rw [hc']
  simp only [shiftLeftTwo]
  rw [if_pos ⟨by omega, by omega⟩, Int.toNat_ofNat, pow_succ]
  congr 1
  ring

/-- The marker cell size is defined, and is a power of two, for every frame
height from 3 to 121546. -/
theorem renderedSize_defined (h : Nat) (h3 : 3 ≤ h) (hmax : h ≤ 121546) :
    ∃ c : Nat, c ≤ 10 ∧ renderedSize 32 h = some (2 ^ (c + 1)) := by
  by_cases c0 : h ≤ 5
  · exact ⟨0, by omega, renderedSize_interval 3 5 0 (by decide) (by decide)
      (by decide!) (by decide!) h h3 c0⟩
  by_cases c1 : h ≤ 15
  · exact ⟨1, by omega, renderedSize_interval 6 15 1 (by decide) (by decide)
      (by decide!) (by decide!) h (by omega) c1⟩
  by_cases c2 : h ≤ 40
  · exact ⟨2, by omega, renderedSize_interval 16 40 2 (by decide) (by decide)
      (by decide!) (by decide!) h (by omega) c2⟩
  by_cases c3 : h ≤ 110
  · exact ⟨3, by omega, renderedSize_interval 41 110 3 (by decide) (by decide)
      (by decide!) (by decide!) h (by omega) c3⟩
  by_cases c4 : h ≤ 301
  · exact ⟨4, by omega, renderedSize_interval 111 301 4 (by decide) (by decide)
      (by decide!) (by decide!) h (by omega) c4⟩
  by_cases c5 : h ≤ 818
  · exact ⟨5, by omega, renderedSize_interval 302 818 5 (by decide) (by decide)
      (by decide!) (by decide!) h (by omega) c5⟩
  by_cases c6 : h ≤ 2226
  · exact ⟨6, by omega, renderedSize_interval 819 2226 6 (by decide) (by decide)
      (by decide!) (by decide!) h (by omega) c6⟩
  by_cases c7 : h ≤ 6051
  · exact ⟨7, by omega, renderedSize_interval 2227 6051 7 (by decide) (by decide)
      (by decide!) (by decide!) h (by omega) c7⟩
  by_cases c8 : h ≤ 16449
  · exact ⟨8, by omega, renderedSize_interval 6052 16449 8 (by decide) (by decide)
      (by decide!) (by decide!) h (by omega) c8⟩
  by_cases c9 : h ≤ 44714
  · exact ⟨9, by omega, renderedSize_interval 16450 44714 9 (by decide) (by decide)
      (by decide!) (by decide!) h (by omega) c9⟩
  · exact ⟨10, by omega, renderedSize_interval 44715 121546 10 (by decide) (by decide)
      (by decide!) (by decide!) h (by omega) hmax⟩

/-- The constructor builds `exampleGUI` for one local player at 640x480. -/
theorem exampleGUI_constructed :
    MinimalRaceGUI.new (exampleSetup 1 640 480 480) = some exampleGUI := by
  decide!

/-- C7, as stated, fails. On a 480 pixel high frame the baseline is 32, itself
a power of two, and the constructor sets the marker cell size to 64; on a 2160
pixel high frame the baseline is 144 and the cell size is 128, below it. -/
theorem marker_size_not_smallest :
    (MinimalRaceGUI.new (exampleSetup 1 640 480 480)).map (fun g => g.m_marker_rendered_size)
        = some 64
    ∧ ¬ IsSmallestPowerOfTwoAtLeast 64 (32 * ((480 : ℚ) / 480))
    ∧ (MinimalRaceGUI.new (exampleSetup 1 3840 2160 2160)).map
        (fun g => g.m_marker_rendered_size) = some 128
    ∧ ((128 : Int) : ℚ) < 32 * ((2160 : ℚ) / 480) := by
  refine ⟨by decide!, ?_, by decide!, by norm_num⟩
  intro h
  have := h.2.2 5 (by norm_num)
  norm_num at this

theorem new_marker_size (rs : RaceSetup) (gui : MinimalRaceGUI)
    (hnew : MinimalRaceGUI.new rs = some gui) :
    renderedSize 32 rs.frameHeight = some gui.m_marker_rendered_size := by
  unfold MinimalRaceGUI.new at hnew
  dsimp only at hnew
  cases h1 : renderedSize 32 rs.frameHeight with
  | none => simp [h1] at hnew
  | some size =>
    simp only [h1] at hnew
    cases h2 : mapAnchor rs.numLocalPlayers rs.m_width rs.m_height
        (truncToInt (200 * ((rs.frameHeight : ℚ) / 480)))
        (truncToInt (200 * ((rs.frameHeight : ℚ) / 480))) with
    | none => simp [h2] at hnew
    | some lb =>
      obtain ⟨l, b⟩ := lb
      simp only [h2] at hnew
      cases h3 : renderedSize 128 rs.frameHeight with
      | none => simp [h3] at hnew
      | some tex =>
        simp only [h3] at hnew
        cases h4 : createMarkerTexture size rs.numberOfKarts rs.kartProperties with
        | none => simp [h4] at hnew
        | some atlas =>
          simp only [h4, Option.some.injEq] at hnew
          subst hnew
          rfl

/-- C7, amended. For every frame height from 3 to 121546 the value the
constructor computes for the marker cell size is defined and is a power of
two; and whenever the constructor builds the object, the marker cell size is
the power of two `2^(c+1)` with `c = ceil(1 + ln(32 * frame height / 480))`,
`ln` the natural logarithm, and `c ≤ 29`. -/
theorem marker_size_power_of_two (rs : RaceSetup) :
    (3 ≤ rs.frameHeight → rs.frameHeight ≤ 121546 →
      ∃ c : Nat, c ≤ 10 ∧ renderedSize 32 rs.frameHeight = some (2 ^ (c + 1)))
    ∧ (∀ gui, MinimalRaceGUI.new rs = some gui →
        ∃ c : Nat, c ≤ 29
          ∧ ⌈(1 : ℝ) + Real.log (32 * ((rs.frameHeight : ℝ) / 480))⌉ = (c : Int)
          ∧ renderedSize 32 rs.frameHeight = some gui.m_marker_rendered_size
          ∧ gui.m_marker_rendered_size = 2 ^ (c + 1)) := by
  refine ⟨renderedSize_defined rs.frameHeight, ?_⟩
  intro gui h
  have hsz0 := new_marker_size rs gui h
  have hsz := hsz0
  unfold renderedSize at hsz
  cases hc : ceilOnePlusLog (32 * ((rs.frameHeight : ℚ) / 480)) with
  | none => simp [hc] at hsz
  | some c =>
    simp only [hc] at hsz
    unfold shiftLeftTwo at hsz
    split_ifs at hsz with hr
    simp only [Option.some.injEq] at hsz
    obtain ⟨-, hceil⟩ := ceilOnePlusLog_sound hc
    refine ⟨c.toNat, by omega, ?_, hsz0, ?_⟩
    · rw [Int.toNat_of_nonneg hr.1, ← hceil]
      push_cast
      rfl
    · rw [← hsz, pow_succ]
      ring

/-- Witness of C7, amended: the object built on a 640x480 screen. -/
theorem marker_size_power_of_two_witness :
    3 ≤ (exampleSetup 1 640 480 480).frameHeight
    ∧ (exampleSetup 1 640 480 480).frameHeight ≤ 121546
    ∧ MinimalRaceGUI.new (exampleSetup 1 640 480 480) = some exampleGUI
    ∧ (∃ c : Nat, c ≤ 10
        ∧ renderedSize 32 (exampleSetup 1 640 480 480).frameHeight = some (2 ^ (c + 1)))
    ∧ ∃ c : Nat, c ≤ 29
      ∧ ⌈(1 : ℝ) + Real.log (32 * (((exampleSetup 1 640 480 480).frameHeight : ℝ) / 480))⌉
          = (c : Int)
      ∧ renderedSize 32 (exampleSetup 1 640 480 480).frameHeight
          = some exampleGUI.m_marker_rendered_size
      ∧ exampleGUI.m_marker_rendered_size = 2 ^ (c + 1) :=
  ⟨by decide, by decide, by decide!,
   (marker_size_power_of_two (exampleSetup 1 640 480 480)).1 (by decide) (by decide),
   (marker_size_power_of_two (exampleSetup 1 640 480 480)).2 exampleGUI (by decide!)⟩

/-! ## Theorems: the energy gauge -/

theorem energyState_nonneg (energy MAX_NITRO : ℚ) : 0 ≤ energyState energy MAX_NITRO := by
  unfold energyState
  split_ifs with h1 h2
  · exact le_refl _
  · norm_num
  · exact le_of_not_lt h1

/-- The clip rectangle of the filled part, as `drawEnergyMeter` issues it. -/
theorem fillClip_drawEnergyMeter (energy MAX_NITRO : ℚ) (numLocalPlayers : Nat)
    (coinTarget : Int) (viewport : recti) :
    fillClip (drawEnergyMeter energy MAX_NITRO numLocalPlayers coinTarget viewport) =
      if 0 < energyState energy MAX_NITRO then
        some (recti.ofCoords
          (if numLocalPlayers ≥ 3 ∧ viewport.UpperLeftCorner.X = 0 then 0
            else viewport.LowerRightCorner.X - Int.tdiv (gaugeHeight viewport) 4)
          (gaugeClipTop (gaugeTop viewport) (gaugeHeight viewport)
            (energyState energy MAX_NITRO) (energyState energy MAX_NITRO))
          ((if numLocalPlayers ≥ 3 ∧ viewport.UpperLeftCorner.X = 0 then 0
            else viewport.LowerRightCorner.X - Int.tdiv (gaugeHeight viewport) 4)
            + Int.tdiv (gaugeHeight viewport) 4)
          (gaugeTop viewport + gaugeHeight viewport))
      else none := by
  unfold drawEnergyMeter
  by_cases hm : numLocalPlayers ≥ 3 ∧ viewport.UpperLeftCorner.X = 0
  · by_cases hs : 0 < energyState energy MAX_NITRO
    · by_cases hc : coinTarget > 0 <;> simp [fillClip, hm, hs, hc]
    · by_cases hc : coinTarget > 0 <;> simp [fillClip, hm, hs, hc]
  · by_cases hs : 0 < energyState energy MAX_NITRO
    · by_cases hc : coinTarget > 0 <;> simp [fillClip, hm, hs, hc]
    · by_cases hc : coinTarget > 0 <;> simp [fillClip, hm, hs, hc]

/-- The height of the filled part as a function of the clamped energy
fraction and of the gauge height. -/
theorem fillHeight_drawEnergyMeter (energy MAX_NITRO : ℚ) (numLocalPlayers : Nat)
    (coinTarget : Int) (viewport : recti) :
    fillHeight (drawEnergyMeter energy MAX_NITRO numLocalPlayers coinTarget viewport) =
      if 0 < energyState energy MAX_NITRO then
        gaugeTop viewport + gaugeHeight viewport
          - gaugeClipTop (gaugeTop viewport) (gaugeHeight viewport)
              (energyState energy MAX_NITRO) (energyState energy MAX_NITRO)
      else 0 := by
  unfold fillHeight
  rw [fillClip_drawEnergyMeter]
  split_ifs <;> rfl

theorem fillDestSource_drawEnergyMeter (energy MAX_NITRO : ℚ) (numLocalPlayers : Nat)
    (coinTarget : Int) (viewport : recti) (hs : 0 < energyState energy MAX_NITRO) :
    fillDestSource (drawEnergyMeter energy MAX_NITRO numLocalPlayers coinTarget viewport) =
      if numLocalPlayers ≥ 3 ∧ viewport.UpperLeftCorner.X = 0 then
        some (recti.ofCoords (Int.tdiv (gaugeHeight viewport) 4)
                (gaugeTop viewport + gaugeHeight viewport) 0 (gaugeTop viewport),
              recti.ofCoords 0 256 64 0)
      else
        some (recti.ofCoords (viewport.LowerRightCorner.X - Int.tdiv (gaugeHeight viewport) 4)
                (gaugeTop viewport)
                (viewport.LowerRightCorner.X - Int.tdiv (gaugeHeight viewport) 4
                  + Int.tdiv (gaugeHeight viewport) 4)
                (gaugeTop viewport + gaugeHeight viewport),
              recti.ofCoords 0 0 64 256) := by
  unfold drawEnergyMeter
  by_cases hm : numLocalPlayers ≥ 3 ∧ viewport.UpperLeftCorner.X = 0
  · by_cases hc : coinTarget > 0 <;> simp [fillDestSource, hm, hs, hc]
  · by_cases hc : coinTarget > 0 <;> simp [fillDestSource, hm, hs, hc]

/-- C9, as stated, fails. With three local players, half of the energy and
two viewports 300 pixels high, the gauge of the left viewport is mirrored and
the gauge of the right viewport is not; both gauges span lines 100 to 200, and
in both the clip rectangle of the filled part spans lines 150 to 200: both are
anchored at the bottom edge of the gauge and neither at the top edge. -/
theorem gauge_mirror_same_edge :
    gaugeTop (recti.ofCoords 0 0 400 300) = 100
    ∧ gaugeTop (recti.ofCoords 400 0 800 300) = 100
    ∧ gaugeHeight (recti.ofCoords 0 0 400 300) = 100
    ∧ gaugeHeight (recti.ofCoords 400 0 800 300) = 100
    ∧ fillClip (drawEnergyMeter (1 / 2) 1 3 0 (recti.ofCoords 0 0 400 300))
        = some (recti.ofCoords 0 150 25 200)
    ∧ fillClip (drawEnergyMeter (1 / 2) 1 3 0 (recti.ofCoords 400 0 800 300))
        = some (recti.ofCoords 775 150 800 200)
    ∧ fillDestSource (drawEnergyMeter (1 / 2) 1 3 0 (recti.ofCoords 0 0 400 300))
        = some (recti.ofCoords 25 200 0 100, recti.ofCoords 0 256 64 0)
    ∧ fillDestSource (drawEnergyMeter (1 / 2) 1 3 0 (recti.ofCoords 400 0 800 300))
        = some (recti.ofCoords 775 100 800 200, recti.ofCoords 0 0 64 256) := by
  decide!

/-- C9, amended. For the same energy and the same viewport height, the
mirrored gauge (3 or more local players, viewport left edge at 0) and a gauge
that is not mirrored have a filled part of equal height; when something is
filled, both clip rectangles end on the bottom edge of their gauge and start
the same distance below its top edge, so both gauges fill from the bottom. The
mirrored blit has the corners of both its destination and its source rectangle
exchanged vertically, and the destination alone exchanged horizontally. -/
theorem gauge_mirror_equal_height (energy MAX_NITRO : ℚ) (n1 n2 : Nat) (c1 c2 : Int)
    (v1 v2 : recti) (hm : n1 ≥ 3 ∧ v1.UpperLeftCorner.X = 0)
    (hn : ¬ (n2 ≥ 3 ∧ v2.UpperLeftCorner.X = 0)) (hh : v1.getHeight = v2.getHeight) :
    fillHeight (drawEnergyMeter energy MAX_NITRO n1 c1 v1)
      = fillHeight (drawEnergyMeter energy MAX_NITRO n2 c2 v2)
    ∧ (0 < energyState energy MAX_NITRO →
        ∃ r1 r2 : recti,
          fillClip (drawEnergyMeter energy MAX_NITRO n1 c1 v1) = some r1
          ∧ fillClip (drawEnergyMeter energy MAX_NITRO n2 c2 v2) = some r2
          ∧ r1.LowerRightCorner.Y = gaugeTop v1 + gaugeHeight v1
          ∧ r2.LowerRightCorner.Y = gaugeTop v2 + gaugeHeight v2
          ∧ r1.UpperLeftCorner.Y - gaugeTop v1 = r2.UpperLeftCorner.Y - gaugeTop v2
          ∧ fillDestSource (drawEnergyMeter energy MAX_NITRO n1 c1 v1) =
              some (recti.ofCoords (Int.tdiv (gaugeHeight v1) 4)
                      (gaugeTop v1 + gaugeHeight v1) 0 (gaugeTop v1),
                    recti.ofCoords 0 256 64 0)
          ∧ fillDestSource (drawEnergyMeter energy MAX_NITRO n2 c2 v2) =
              some (recti.ofCoords (v2.LowerRightCorner.X - Int.tdiv (gaugeHeight v2) 4)
                      (gaugeTop v2)
                      (v2.LowerRightCorner.X - Int.tdiv (gaugeHeight v2) 4
                        + Int.tdiv (gaugeHeight v2) 4)
                      (gaugeTop v2 + gaugeHeight v2),
                    recti.ofCoords 0 0 64 256)) := by
  have hgh : gaugeHeight v1 = gaugeHeight v2 := by
    unfold gaugeHeight
    rw [hh]
  have hoff : ∀ s : ℚ, gaugeClipTop (gaugeTop v1) (gaugeHeight v1) s s - gaugeTop v1
      = gaugeClipTop (gaugeTop v2) (gaugeHeight v2) s s - gaugeTop v2 := by
    intro s
    unfold gaugeClipTop
    rw [hgh]
    split_ifs <;> ring
  constructor
  · rw [fillHeight_drawEnergyMeter, fillHeight_drawEnergyMeter]
    split_ifs
    · have := hoff (energyState energy MAX_NITRO)
      rw [hgh] at this ⊢
      omega
    · rfl
  · intro hs
    refine ⟨recti.ofCoords 0
        (gaugeClipTop (gaugeTop v1) (gaugeHeight v1) (energyState energy MAX_NITRO)
          (energyState energy MAX_NITRO))
        (0 + Int.tdiv (gaugeHeight v1) 4) (gaugeTop v1 + gaugeHeight v1),
      recti.ofCoords (v2.LowerRightCorner.X - Int.tdiv (gaugeHeight v2) 4)
        (gaugeClipTop (gaugeTop v2) (gaugeHeight v2) (energyState energy MAX_NITRO)
          (energyState energy MAX_NITRO))
        (v2.LowerRightCorner.X - Int.tdiv (gaugeHeight v2) 4 + Int.tdiv (gaugeHeight v2) 4)
        (gaugeTop v2 + gaugeHeight v2), ?_, ?_, rfl, rfl, ?_, ?_, ?_⟩
    · rw [fillClip_drawEnergyMeter, if_pos hs, if_pos hm]
    · rw [fillClip_drawEnergyMeter, if_pos hs, if_neg hn]
    · exact hoff _
    · rw [fillDestSource_drawEnergyMeter _ _ _ _ _ hs, if_pos hm]
    · rw [fillDestSource_drawEnergyMeter _ _ _ _ _ hs, if_neg hn]

/-- Witness of C9, amended: the left and the right viewport of a screen shared
by three players. -/
theorem gauge_mirror_equal_height_witness :
    (3 ≥ 3 ∧ (recti.ofCoords 0 0 400 300).UpperLeftCorner.X = 0)
    ∧ ¬ (3 ≥ 3 ∧ (recti.ofCoords 400 0 800 300).UpperLeftCorner.X = 0)
    ∧ (recti.ofCoords 0 0 400 300).getHeight = (recti.ofCoords 400 0 800 300).getHeight
    ∧ 0 < energyState (1 / 2) 1
    ∧ fillHeight (drawEnergyMeter (1 / 2) 1 3 0 (recti.ofCoords 0 0 400 300))
        = fillHeight (drawEnergyMeter (1 / 2) 1 3 0 (recti.ofCoords 400 0 800 300))
    ∧ ∃ r1 r2 : recti,
        fillClip (drawEnergyMeter (1 / 2) 1 3 0 (recti.ofCoords 0 0 400 300)) = some r1
        ∧ fillClip (drawEnergyMeter (1 / 2) 1 3 0 (recti.ofCoords 400 0 800 300)) = some r2
        ∧ r1.LowerRightCorner.Y = 200 ∧ r2.LowerRightCorner.Y = 200 := by
  refine ⟨by decide, by decide, by decide, by decide!, ?_, ?_⟩
  · exact (gauge_mirror_equal_height (1 / 2) 1 3 3 0 0 (recti.ofCoords 0 0 400 300)
      (recti.ofCoords 400 0 800 300) (by decide) (by decide) (by decide)).1
  · obtain ⟨r1, r2, h1, h2, h3, h4, -⟩ :=
      (gauge_mirror_equal_height (1 / 2) 1 3 3 0 0 (recti.ofCoords 0 0 400 300)
        (recti.ofCoords 400 0 800 300) (by decide) (by decide) (by decide)).2 (by decide!)
    exact ⟨r1, r2, h1, h2, h3.trans (by decide!), h4.trans (by decide!)⟩

/-! ## Theorems: the mini-map and the frame -/

theorem new_map_anchor (rs : RaceSetup) (gui : MinimalRaceGUI)
    (hnew : MinimalRaceGUI.new rs = some gui) :
    mapAnchor rs.numLocalPlayers rs.m_width rs.m_height gui.m_map_width gui.m_map_height
      = some (gui.m_map_left, gui.m_map_bottom) := by
  unfold MinimalRaceGUI.new at hnew
  dsimp only at hnew
  cases h1 : renderedSize 32 rs.frameHeight with
  | none => simp [h1] at hnew
  | some size =>
    simp only [h1] at hnew
    cases h2 : mapAnchor rs.numLocalPlayers rs.m_width rs.m_height
        (truncToInt (200 * ((rs.frameHeight : ℚ) / 480)))
        (truncToInt (200 * ((rs.frameHeight : ℚ) / 480))) with
    | none => simp [h2] at hnew
    | some lb =>
      obtain ⟨l, b⟩ := lb
      simp only [h2] at hnew
      cases h3 : renderedSize 128 rs.frameHeight with
      | none => simp [h3] at hnew
      | some tex =>
        simp only [h3] at hnew
        cases h4 : createMarkerTexture size rs.numberOfKarts rs.kartProperties with
        | none => simp [h4] at hnew
        | some atlas =>
          simp only [h4, Option.some.injEq] at hnew
          subst hnew
          exact h2

/-- C10. With one local player, whatever the resolution, the mini-map that
`drawGlobalMiniMap` draws on a track that has one is blitted into a rectangle
whose left edge is 10 and whose bottom edge is the screen height minus 10. -/
theorem minimap_anchor_one_player (rs : RaceSetup) (gui : MinimalRaceGUI) (world : World)
    (hplayers : rs.numLocalPlayers = 1) (hnew : MinimalRaceGUI.new rs = some gui)
    (harena : world.isArena = false) :
    ∃ rest, gui.drawGlobalMiniMap world =
      DrawCall.draw2DImage Texture.mini_map
        (recti.ofCoords 10 (rs.m_height - 10 - gui.m_map_height) (10 + gui.m_map_width)
          (rs.m_height - 10))
        SourceRect.whole none none true :: rest := by
  have h := new_map_anchor rs gui hnew
  rw [hplayers] at h
  simp only [mapAnchor, Option.some.injEq, Prod.mk.injEq] at h
  refine ⟨(List.range world.numKarts).flatMap
    (fun i => miniMapKartDraws gui gui.m_map_bottom (world.kart i) i), ?_⟩
  unfold MinimalRaceGUI.drawGlobalMiniMap
  rw [harena, ← h.1, ← h.2]
  rfl

/-- Witness of C10: one local player at 1920x1080; the mini-map is 450 pixels
wide and high, its left edge is 10 and its bottom edge 1070. -/
theorem minimap_anchor_one_player_witness :
    (exampleSetup 1 1920 1080 1080).numLocalPlayers = 1
    ∧ (exampleWorld 1 1920 1080).isArena = false
    ∧ ∃ gui, MinimalRaceGUI.new (exampleSetup 1 1920 1080 1080) = some gui
        ∧ ∃ rest, gui.drawGlobalMiniMap (exampleWorld 1 1920 1080) =
            DrawCall.draw2DImage Texture.mini_map (recti.ofCoords 10 620 460 1070)
              SourceRect.whole none none true :: rest := by
  refine ⟨rfl, rfl, ?_⟩
  have hs : (MinimalRaceGUI.new (exampleSetup 1 1920 1080 1080)).isSome = true := by decide!
  obtain ⟨gui, hg⟩ := Option.isSome_iff_exists.mp hs
  have hw : (MinimalRaceGUI.new (exampleSetup 1 1920 1080 1080)).map
      (fun g => (g.m_map_width, g.m_map_height)) = some (450, 450) := by decide!
  rw [hg] at hw
  simp only [Option.map_some', Option.some.injEq, Prod.mk.injEq] at hw
  obtain ⟨rest, hr⟩ := minimap_anchor_one_player (exampleSetup 1 1920 1080 1080) gui
    (exampleWorld 1 1920 1080) rfl hg rfl
  refine ⟨gui, hg, rest, ?_⟩
  rw [hr, hw.1, hw.2]
  rfl

theorem renderGlobal_messages (gui : MinimalRaceGUI) (world : World) (fonts : Fonts) (dt : ℚ) :
    (gui.renderGlobal world fonts dt).1 = gui.cleanupMessages dt := by
  unfold MinimalRaceGUI.renderGlobal
  simp only
  split_ifs <;> rfl

/-! ## Theorems: the global pass -/

theorem readySetGo_no_rectangle (gui : MinimalRaceGUI) (world : World) (fonts : Fonts) :
    (gui.drawGlobalReadySetGo world fonts).any DrawCall.isRectangle = false := by
  unfold MinimalRaceGUI.drawGlobalReadySetGo
  cases world.phase <;> rfl

theorem timer_no_rectangle (gui : MinimalRaceGUI) (world : World) (fonts : Fonts) :
    (gui.drawGlobalTimer world fonts).any DrawCall.isRectangle = false := by
  unfold MinimalRaceGUI.drawGlobalTimer
  split_ifs <;> rfl

theorem music_no_rectangle (gui : MinimalRaceGUI) (world : World) (fonts : Fonts) :
    (gui.drawGlobalMusicDescription world fonts).any DrawCall.isRectangle = false := by
  unfold MinimalRaceGUI.drawGlobalMusicDescription
  split_ifs with h
  · rfl
  · cases world.currentMusic with
    | none => rfl
    | some mi =>
      simp only
      split_ifs <;> simp [DrawCall.isRectangle]

theorem miniMapKart_no_rectangle (gui : MinimalRaceGUI) (lower_y : Int) (kart : WorldKart)
    (i : Nat) : (miniMapKartDraws gui lower_y kart i).any DrawCall.isRectangle = false := by
  unfold miniMapKartDraws
  split_ifs <;> simp [DrawCall.isRectangle]

theorem miniMap_no_rectangle (gui : MinimalRaceGUI) (world : World) :
    (gui.drawGlobalMiniMap world).any DrawCall.isRectangle = false := by
  unfold MinimalRaceGUI.drawGlobalMiniMap
  split_ifs
  · rfl
  · simp only [List.any_cons, DrawCall.isRectangle, Bool.false_or]
    rw [List.any_eq_false]
    intro d hd
    rw [List.mem_flatMap] at hd
    obtain ⟨i, -, hi⟩ := hd
    have := miniMapKart_no_rectangle gui gui.m_map_bottom (world.kart i) i
    rw [List.any_eq_false] at this
    exact this d hi

/-- The draw calls of `renderGlobal` after the paint of the fourth quadrant:
the banner, and in the race phase of an enabled HUD the timer, the music
caption and the mini-map. -/
theorem renderGlobal_draws (gui : MinimalRaceGUI) (world : World) (fonts : Fonts) (dt : ℚ) :
    ∃ rest : List DrawCall, rest.any DrawCall.isRectangle = false
      ∧ (gui.renderGlobal world fonts dt).2 =
        (if world.numLocalPlayers = 3 ∧ ¬ world.isADialogActive then
          [DrawCall.draw2DRectangle { alpha := 255, red := 0, green := 0, blue := 0 }
            (recti.ofCoords (Int.tdiv world.m_width 2) (Int.tdiv world.m_height 2)
              world.m_width world.m_height)]
         else []) ++ rest := by
  have hb : ∀ g : MinimalRaceGUI,
      (if Phase.READY_PHASE.toNat ≤ world.phase.toNat
          ∧ world.phase.toNat ≤ Phase.GO_PHASE.toNat then
        g.drawGlobalReadySetGo world fonts else []).any DrawCall.isRectangle = false := by
    intro g
    split_ifs
    · exact readySetGo_no_rectangle g world fonts
    · rfl
  have hm : ∀ g : MinimalRaceGUI,
      (if world.phase = Phase.GO_PHASE ∨ world.phase = Phase.MUSIC_PHASE then
        g.drawGlobalMusicDescription world fonts else []).any DrawCall.isRectangle = false := by
    intro g
    split_ifs
    · exact music_no_rectangle g world fonts
    · rfl
  unfold MinimalRaceGUI.renderGlobal
  simp only
  by_cases hr : world.isRacePhase = true
  · by_cases he : (gui.cleanupMessages dt).m_enabled = true
    · simp only [hr, he, Bool.not_true, Bool.false_eq_true, if_false]
      refine ⟨_, ?_, by rw [List.append_assoc, List.append_assoc, List.append_assoc]⟩
      simp only [List.any_append, hb, hm, timer_no_rectangle, miniMap_no_rectangle,
        Bool.or_self]
    · have he' : (gui.cleanupMessages dt).m_enabled = false := by simpa using he
      simp only [hr, he', Bool.not_true, Bool.not_false, Bool.false_eq_true, if_false, if_true]
      exact ⟨_, hb _, rfl⟩
  · have hr' : world.isRacePhase = false := by simpa using hr
    simp only [hr', Bool.not_false, if_true]
    exact ⟨_, hb _, rfl⟩

/-- C11, as stated, fails. With exactly 3 local players and a modal dialog
active, `renderGlobal` paints no rectangle: in the race phase its first draw
call is the timer. -/
theorem quadrant_not_painted_under_dialog :
    ({ exampleWorld 3 800 600 with isADialogActive := true } : World).numLocalPlayers = 3
    ∧ ((exampleGUI.renderGlobal { exampleWorld 3 800 600 with isADialogActive := true }
          exampleFonts 0).2.any DrawCall.isRectangle) = false
    ∧ (exampleGUI.renderGlobal { exampleWorld 3 800 600 with isADialogActive := true }
          exampleFonts 0).2.head? =
        some (DrawCall.fontDraw Font.regular 1 none "00:12:34" (recti.ofCoords 710 300 800 350)
          white false false) := by
  decide!

/-- C11, amended. Whenever there are exactly 3 local players and no modal
dialog is active, `renderGlobal` paints the rectangle (width/2, height/2,
width, height) solid black as its first draw call, before any banner, timer,
music caption or mini-map, and paints no other rectangle; with any other
player count, or while a modal dialog is active, it paints no rectangle. -/
theorem quadrant_painted_first (gui : MinimalRaceGUI) (world : World) (fonts : Fonts) (dt : ℚ) :
    (world.numLocalPlayers = 3 → world.isADialogActive = false →
      ∃ rest : List DrawCall, rest.any DrawCall.isRectangle = false
        ∧ (gui.renderGlobal world fonts dt).2 =
          DrawCall.draw2DRectangle { alpha := 255, red := 0, green := 0, blue := 0 }
            (recti.ofCoords (Int.tdiv world.m_width 2) (Int.tdiv world.m_height 2)
              world.m_width world.m_height) :: rest)
    ∧ (world.numLocalPlayers ≠ 3 ∨ world.isADialogActive = true →
        (gui.renderGlobal world fonts dt).2.any DrawCall.isRectangle = false) := by
  obtain ⟨rest, hrest, heq⟩ := renderGlobal_draws gui world fonts dt
  constructor
  · intro h3 hd
    refine ⟨rest, hrest, ?_⟩
    rw [heq, if_pos ⟨h3, by simp [hd]⟩]
    rfl
  · intro h
    rw [heq, if_neg (by rcases h with h | h <;> simp [h])]
    simpa using hrest

/-- Witness of C11, amended: three players on an 800x600 screen. -/
theorem quadrant_painted_first_witness :
    (exampleWorld 3 800 600).numLocalPlayers = 3
    ∧ (exampleWorld 3 800 600).isADialogActive = false
    ∧ ((exampleWorld 1 800 600).numLocalPlayers ≠ 3
        ∨ (exampleWorld 1 800 600).isADialogActive = true)
    ∧ (∃ rest : List DrawCall, rest.any DrawCall.isRectangle = false
        ∧ (exampleGUI.renderGlobal (exampleWorld 3 800 600) exampleFonts 0).2 =
          DrawCall.draw2DRectangle { alpha := 255, red := 0, green := 0, blue := 0 }
            (recti.ofCoords (Int.tdiv (exampleWorld 3 800 600).m_width 2)
              (Int.tdiv (exampleWorld 3 800 600).m_height 2)
              (exampleWorld 3 800 600).m_width (exampleWorld 3 800 600).m_height) :: rest)
    ∧ (exampleGUI.renderGlobal (exampleWorld 1 800 600) exampleFonts 0).2.any
        DrawCall.isRectangle = false :=
  ⟨rfl, rfl, Or.inl (by decide),
   (quadrant_painted_first exampleGUI (exampleWorld 3 800 600) exampleFonts 0).1 rfl rfl,
   (quadrant_painted_first exampleGUI (exampleWorld 1 800 600) exampleFonts 0).2
     (Or.inl (by decide))⟩

/-! ## Theorems: the pass of one player -/

/-- C14. The race time `drawGlobalMusicDescription` works with is the start
value of the countdown minus its current value in follow-the-leader mode, and
the world time in every other mode: the draw calls in follow-the-leader mode
are those of a normal race whose time is that difference. With a start value
of 180 s and a current value of 170 s it is 10 s. -/
theorem music_race_time (gui : MinimalRaceGUI) (world : World) (fonts : Fonts) :
    (world.minorMode = MinorRaceModeType.MINOR_MODE_FOLLOW_LEADER →
      musicRaceTime world = world.clockStartTime - world.time
      ∧ gui.drawGlobalMusicDescription world fonts =
          gui.drawGlobalMusicDescription
            { world with minorMode := MinorRaceModeType.MINOR_MODE_NORMAL_RACE,
                         time := world.clockStartTime - world.time } fonts)
    ∧ (world.minorMode ≠ MinorRaceModeType.MINOR_MODE_FOLLOW_LEADER →
        musicRaceTime world = world.time)
    ∧ musicRaceTime { world with minorMode := MinorRaceModeType.MINOR_MODE_FOLLOW_LEADER,
                                 clockStartTime := 180, time := 170 } = 10 := by
  refine ⟨?_, ?_, ?_⟩
  · intro h
    have h1 : musicRaceTime world = world.clockStartTime - world.time := by
      unfold musicRaceTime
      rw [if_pos h]
    have h2 : musicRaceTime
        { world with minorMode := MinorRaceModeType.MINOR_MODE_NORMAL_RACE,
                     time := world.clockStartTime - world.time }
        = world.clockStartTime - world.time := by
      unfold musicRaceTime
      rw [if_neg (by simp)]
    refine ⟨h1, ?_⟩
    unfold MinimalRaceGUI.drawGlobalMusicDescription
    rw [h1, h2]
  · intro h
    unfold musicRaceTime
    rw [if_neg h]
  · unfold musicRaceTime
    simp only [if_true]
    norm_num

/-- Witness of C14: a follow-the-leader race 10 s after its start. -/
theorem music_race_time_witness :
    ({ exampleWorld 1 800 600 with
        minorMode := MinorRaceModeType.MINOR_MODE_FOLLOW_LEADER,
        clockStartTime := 180, time := 170 } : World).minorMode
      = MinorRaceModeType.MINOR_MODE_FOLLOW_LEADER
    ∧ (exampleWorld 1 800 600).minorMode ≠ MinorRaceModeType.MINOR_MODE_FOLLOW_LEADER
    ∧ musicRaceTime { exampleWorld 1 800 600 with
        minorMode := MinorRaceModeType.MINOR_MODE_FOLLOW_LEADER,
        clockStartTime := 180, time := 170 } = 180 - 170
    ∧ musicRaceTime (exampleWorld 1 800 600) = 12 :=
  ⟨rfl, by decide,
   ((music_race_time exampleGUI { exampleWorld 1 800 600 with
        minorMode := MinorRaceModeType.MINOR_MODE_FOLLOW_LEADER,
        clockStartTime := 180, time := 170 } exampleFonts).1 rfl).1,
   (music_race_time exampleGUI (exampleWorld 1 800 600) exampleFonts).2.1 (by decide)⟩

/-- C12. For a kart that has finished the race `drawRankLap` issues no draw
call, neither the rank nor the lap text, in every mode and viewport and for
every lap counter, and leaves every font as it found it. -/
theorem finished_kart_no_rank_lap (gui : MinimalRaceGUI) (world : World) (fonts : Fonts)
    (kart : Kart) (viewport : recti) (hfin : kart.hasFinishedRace = true) :
    gui.drawRankLap world fonts kart viewport = (fonts, []) := by
  unfold MinimalRaceGUI.drawRankLap
  rw [if_pos hfin]

/-- Witness of C12: a kart that has finished. -/
theorem finished_kart_no_rank_lap_witness :
    ({ exampleKart with hasFinishedRace := true } : Kart).hasFinishedRace = true
    ∧ exampleGUI.drawRankLap (exampleWorld 1 800 600) exampleFonts
        { exampleKart with hasFinishedRace := true } (recti.ofCoords 0 0 800 600)
      = (exampleFonts, []) :=
  ⟨rfl, finished_kart_no_rank_lap exampleGUI (exampleWorld 1 800 600) exampleFonts
    { exampleKart with hasFinishedRace := true } (recti.ofCoords 0 0 800 600) rfl⟩

/-- C13, as stated, fails. For a kart that has not finished and whose lap
counter is still -1, `drawRankLap` draws the rank text "1/2" and no lap
text: the rank is not suppressed. -/
theorem rank_drawn_before_first_lap :
    exampleKart.hasFinishedRace = false
    ∧ ({ exampleWorld 1 800 600 with kartLap := fun _ => -1 } : World).kartLap
        exampleKart.worldKartId = -1
    ∧ (exampleGUI.drawRankLap { exampleWorld 1 800 600 with kartLap := fun _ => -1 }
        exampleFonts exampleKart (recti.ofCoords 0 0 800 600)).2
      = [DrawCall.fontDraw Font.regular 1
          (some { alpha := 255, red := 0, green := 0, blue := 0 }) "1/2"
          (recti.ofCoords 760 0 800 50) white false false] := by
  decide!

/-- C13, amended. For a kart that has not finished, `drawRankLap` draws the
rank as "position/currentNumKarts" when the world displays ranks, whatever the
lap counter is, and then the lap as the translated word for lap, a blank and
"lap+1/numLaps" when the mode has laps and the lap counter is not negative;
only the lap text is suppressed while the lap counter is negative. Both texts
are drawn with the scale `m_font_scale` and a black shadow; afterwards the font
has its old scale and no shadow. -/
theorem rank_and_lap_texts (gui : MinimalRaceGUI) (world : World) (fonts : Fonts)
    (kart : Kart) (viewport : recti) (hfin : kart.hasFinishedRace = false) :
    gui.drawRankLap world fonts kart viewport =
      (fonts.set (if world.numLocalPlayers > 2 then Font.small else Font.regular)
          { scale := (fonts.get
              (if world.numLocalPlayers > 2 then Font.small else Font.regular)).scale,
            shadow := none },
       (if world.displayRank = true then
          [DrawCall.fontDraw (if world.numLocalPlayers > 2 then Font.small else Font.regular)
            gui.m_font_scale (some { alpha := 255, red := 0, green := 0, blue := 0 })
            (toString kart.position ++ "/" ++ toString (toS32 world.currentNumKarts))
            (recti.ofCoords
              (if viewport.LowerRightCorner.X < world.m_width then 10
                else viewport.LowerRightCorner.X - gui.m_rank_width - 10)
              viewport.UpperLeftCorner.Y viewport.LowerRightCorner.X
              (viewport.UpperLeftCorner.Y + 50))
            { alpha := 255, red := 255, green := 255, blue := 255 } false false]
        else [])
       ++ (if world.raceHasLaps = true ∧ 0 ≤ world.kartLap kart.worldKartId then
          [DrawCall.fontDraw (if world.numLocalPlayers > 2 then Font.small else Font.regular)
            gui.m_font_scale (some { alpha := 255, red := 0, green := 0, blue := 0 })
            (gui.m_string_lap ++ " " ++ (toString (world.kartLap kart.worldKartId + 1) ++ "/"
              ++ toString world.numLaps))
            (recti.ofCoords
              (if viewport.LowerRightCorner.X < world.m_width then 10
                else viewport.LowerRightCorner.X - gui.m_lap_width - 10)
              (viewport.LowerRightCorner.Y - 60) viewport.LowerRightCorner.X
              viewport.LowerRightCorner.Y)
            { alpha := 255, red := 255, green := 255, blue := 255 } false false]
        else [])) := by
  unfold MinimalRaceGUI.drawRankLap
  rw [if_neg (by simp [hfin])]
  by_cases hl : world.raceHasLaps = true
  · by_cases hp : 0 ≤ world.kartLap kart.worldKartId
    · simp [formatPair, hl, hp]
    · simp [formatPair, hl, hp]
  · simp [formatPair, hl]

/-- Witness of C13, amended: the second lap of a kart in first position. -/
theorem rank_and_lap_texts_witness :
    exampleKart.hasFinishedRace = false
    ∧ (exampleGUI.drawRankLap { exampleWorld 1 800 600 with kartLap := fun _ => 1 }
        exampleFonts exampleKart (recti.ofCoords 0 0 800 600)).2
      = [DrawCall.fontDraw Font.regular 1
          (some { alpha := 255, red := 0, green := 0, blue := 0 }) "1/2"
          (recti.ofCoords 760 0 800 50) white false false,
         DrawCall.fontDraw Font.regular 1
          (some { alpha := 255, red := 0, green := 0, blue := 0 }) "Lap 2/3"
          (recti.ofCoords 720 540 800 600) white false false] := by
  refine ⟨rfl, ?_⟩
  rw [rank_and_lap_texts exampleGUI { exampleWorld 1 800 600 with kartLap := fun _ => 1 }
    exampleFonts exampleKart (recti.ofCoords 0 0 800 600) rfl]
  decide!

/-- C15, as stated, fails. With the HUD disabled, 3 local players and the
world in its ready phase, `renderGlobal` still paints the fourth quadrant and
draws the banner. -/
theorem disabled_hud_still_draws :
    ({ exampleGUI with m_enabled := false } : MinimalRaceGUI).m_enabled = false
    ∧ (({ exampleGUI with m_enabled := false } : MinimalRaceGUI).renderGlobal
        { exampleWorld 3 800 600 with phase := Phase.READY_PHASE, isRacePhase := false }
        exampleFonts 0).2
      = [DrawCall.draw2DRectangle { alpha := 255, red := 0, green := 0, blue := 0 }
          (recti.ofCoords 400 300 800 600),
         DrawCall.fontDraw Font.title 1 none "Ready!" (recti.ofCoords 400 300 400 300) white
          true true] := by
  decide!

/-- C15, amended. With the HUD disabled `renderPlayerView` issues no draw call
and leaves the fonts alone, and `renderGlobal` issues neither the timer nor
the music caption nor the mini-map: its draw calls are the paint of the fourth
quadrant, if there are 3 local players and no modal dialog, followed by the
banner, if the phase is one of ready, set and go. It draws nothing at all when
neither is the case. -/
theorem disabled_hud_draws (gui : MinimalRaceGUI) (world : World) (fonts : Fonts) (dt : ℚ)
    (kart : Kart) (hoff : gui.m_enabled = false) :
    gui.renderPlayerView world fonts kart = (fonts, [])
    ∧ (gui.renderGlobal world fonts dt).2 =
        (if world.numLocalPlayers = 3 ∧ world.isADialogActive = false then
          [DrawCall.draw2DRectangle { alpha := 255, red := 0, green := 0, blue := 0 }
            (recti.ofCoords (Int.tdiv world.m_width 2) (Int.tdiv world.m_height 2)
              world.m_width world.m_height)]
         else [])
        ++ (if world.phase = Phase.READY_PHASE ∨ world.phase = Phase.SET_PHASE
              ∨ world.phase = Phase.GO_PHASE then
            (gui.cleanupMessages dt).drawGlobalReadySetGo world fonts
          else [])
    ∧ (¬ (world.numLocalPlayers = 3 ∧ world.isADialogActive = false) →
        ¬ (world.phase = Phase.READY_PHASE ∨ world.phase = Phase.SET_PHASE
            ∨ world.phase = Phase.GO_PHASE) →
        (gui.renderGlobal world fonts dt).2 = []) := by
  have hq : (if world.numLocalPlayers = 3 ∧ ¬ world.isADialogActive = true then
        [DrawCall.draw2DRectangle { alpha := 255, red := 0, green := 0, blue := 0 }
          (recti.ofCoords (Int.tdiv world.m_width 2) (Int.tdiv world.m_height 2)
            world.m_width world.m_height)]
      else [])
      = (if world.numLocalPlayers = 3 ∧ world.isADialogActive = false then
        [DrawCall.draw2DRectangle { alpha := 255, red := 0, green := 0, blue := 0 }
          (recti.ofCoords (Int.tdiv world.m_width 2) (Int.tdiv world.m_height 2)
            world.m_width world.m_height)]
      else []) := by
    cases world.isADialogActive <;> simp
  have hb : (if Phase.READY_PHASE.toNat ≤ world.phase.toNat
          ∧ world.phase.toNat ≤ Phase.GO_PHASE.toNat then
        (gui.cleanupMessages dt).drawGlobalReadySetGo world fonts else [])
      = (if world.phase = Phase.READY_PHASE ∨ world.phase = Phase.SET_PHASE
            ∨ world.phase = Phase.GO_PHASE then
          (gui.cleanupMessages dt).drawGlobalReadySetGo world fonts
        else []) := by
    cases world.phase <;> simp [Phase.toNat]
  have hg : (gui.renderGlobal world fonts dt).2 =
      (if world.numLocalPlayers = 3 ∧ world.isADialogActive = false then
          [DrawCall.draw2DRectangle { alpha := 255, red := 0, green := 0, blue := 0 }
            (recti.ofCoords (Int.tdiv world.m_width 2) (Int.tdiv world.m_height 2)
              world.m_width world.m_height)]
         else [])
        ++ (if world.phase = Phase.READY_PHASE ∨ world.phase = Phase.SET_PHASE
              ∨ world.phase = Phase.GO_PHASE then
            (gui.cleanupMessages dt).drawGlobalReadySetGo world fonts
          else []) := by
    have he : (gui.cleanupMessages dt).m_enabled = false := hoff
    unfold MinimalRaceGUI.renderGlobal
    simp only [he, Bool.not_false, if_true]
    rw [hq, hb]
    split_ifs <;> rfl
  refine ⟨?_, hg, ?_⟩
  · unfold MinimalRaceGUI.renderPlayerView
    simp [hoff]
  · intro h1 h2
    rw [hg, if_neg h1, if_neg h2]
    rfl

/-- Witness of C15, amended: the disabled HUD in the race phase of a race of
one player. -/
theorem disabled_hud_draws_witness :
    ({ exampleGUI with m_enabled := false } : MinimalRaceGUI).m_enabled = false
    ∧ ¬ ((exampleWorld 1 800 600).numLocalPlayers = 3
          ∧ (exampleWorld 1 800 600).isADialogActive = false)
    ∧ ¬ ((exampleWorld 1 800 600).phase = Phase.READY_PHASE
          ∨ (exampleWorld 1 800 600).phase = Phase.SET_PHASE
          ∨ (exampleWorld 1 800 600).phase = Phase.GO_PHASE)
    ∧ ({ exampleGUI with m_enabled := false } : MinimalRaceGUI).renderPlayerView
        (exampleWorld 1 800 600) exampleFonts exampleKart = (exampleFonts, [])
    ∧ (({ exampleGUI with m_enabled := false } : MinimalRaceGUI).renderGlobal
        (exampleWorld 1 800 600) exampleFonts 0).2 = [] :=
  ⟨rfl, by decide, by decide,
   (disabled_hud_draws { exampleGUI with m_enabled := false } (exampleWorld 1 800 600)
      exampleFonts 0 exampleKart rfl).1,
   (disabled_hud_draws { exampleGUI with m_enabled := false } (exampleWorld 1 800 600)
      exampleFonts 0 exampleKart rfl).2.2 (by decide) (by decide)⟩

/-- C18. With the HUD enabled `renderPlayerView` always runs the message pass,
after the overlay of an obstructed view; outside the race phase it stops
there, and in the race phase the power-up icons, the energy gauge and the rank
and lap texts follow in this order. -/
theorem renderPlayerView_passes (gui : MinimalRaceGUI) (world : World) (fonts : Fonts)
    (kart : Kart) (hon : gui.m_enabled = true) :
    (world.isRacePhase = false →
      gui.renderPlayerView world fonts kart =
        (fonts,
         (if kart.hasViewBlockedByPlunger = true then [plungerDraw kart.viewport] else [])
         ++ (gui.drawAllMessages world.numLocalPlayers fonts (some kart.id) kart.viewport
              (viewScaling kart)).2))
    ∧ (world.isRacePhase = true →
      gui.renderPlayerView world fonts kart =
        ((gui.drawRankLap world fonts kart kart.viewport).1,
         (if kart.hasViewBlockedByPlunger = true then [plungerDraw kart.viewport] else [])
         ++ (gui.drawAllMessages world.numLocalPlayers fonts (some kart.id) kart.viewport
              (viewScaling kart)).2
         ++ drawPowerupIcons kart kart.viewport (viewScaling kart)
         ++ drawEnergyMeter kart.energy world.MAX_NITRO world.numLocalPlayers world.coinTarget
              kart.viewport
         ++ (gui.drawRankLap world fonts kart kart.viewport).2)) := by
  constructor
  · intro hr
    unfold MinimalRaceGUI.renderPlayerView
    simp [hon, hr]
  · intro hr
    unfold MinimalRaceGUI.renderPlayerView
    simp [hon, hr]

/-- Witness of C18: the view of a kart with one power-up and half of the
energy, before the start and in the race. -/
theorem renderPlayerView_passes_witness :
    exampleGUI.m_enabled = true
    ∧ ({ exampleWorld 1 800 600 with isRacePhase := false } : World).isRacePhase = false
    ∧ (exampleWorld 1 800 600).isRacePhase = true
    ∧ (exampleGUI.renderPlayerView { exampleWorld 1 800 600 with isRacePhase := false }
        exampleFonts exampleKart).2 = []
    ∧ (exampleGUI.renderPlayerView (exampleWorld 1 800 600) exampleFonts exampleKart).2.length
        = 5 := by
  refine ⟨rfl, rfl, rfl, ?_, ?_⟩
  · rw [(renderPlayerView_passes exampleGUI { exampleWorld 1 800 600 with isRacePhase := false }
      exampleFonts exampleKart rfl).1 rfl]
    decide!
  · rw [(renderPlayerView_passes exampleGUI (exampleWorld 1 800 600) exampleFonts exampleKart
      rfl).2 rfl]
    decide!

/-- C17, as stated, fails. In an 800x600 viewport the face icon is drawn into
the rectangle (100, 0, 700, 600), which leaves 100 pixels of the viewport
uncovered on either side. -/
theorem plunger_not_covering :
    exampleGUI.m_enabled = true
    ∧ ({ exampleKart with hasViewBlockedByPlunger := true } : Kart).viewport
        = recti.ofCoords 0 0 800 600
    ∧ (exampleGUI.renderPlayerView (exampleWorld 1 800 600) exampleFonts
        { exampleKart with hasViewBlockedByPlunger := true }).2.head?
      = some (DrawCall.draw2DImage Texture.plunger_face (recti.ofCoords 100 0 700 600)
          SourceRect.whole none none true) := by
  decide!

theorem tdiv_two_add_tmod (a : Int) : 2 * Int.tdiv a 2 + Int.tmod a 2 = a :=
  Int.tdiv_add_tmod a 2

theorem tdiv_two_le (a b : Int) (ha : 0 ≤ a) (hab : a ≤ b) : Int.tdiv a 2 ≤ Int.tdiv b 2 := by
  rw [Int.tdiv_eq_ediv ha (by norm_num), Int.tdiv_eq_ediv (le_trans ha hab) (by norm_num)]
  omega

/-- C17, amended. With the HUD enabled and the view of the kart obstructed,
the first draw call of `renderPlayerView` blits the face icon into a square
whose side is the height of the viewport: its top and bottom edges are those
of the viewport, and its left edge is the viewport's left edge plus half the
width minus half the height, so that it is centered horizontally up to the
rounding of the two halves. It covers the full viewport when the viewport is
not wider than it is high. -/
theorem plunger_overlay (gui : MinimalRaceGUI) (world : World) (fonts : Fonts) (kart : Kart)
    (hon : gui.m_enabled = true) (hblocked : kart.hasViewBlockedByPlunger = true) :
    ∃ dest rest,
      (gui.renderPlayerView world fonts kart).2 =
        DrawCall.draw2DImage Texture.plunger_face dest SourceRect.whole none none true :: rest
      ∧ dest.UpperLeftCorner.Y = kart.viewport.UpperLeftCorner.Y
      ∧ dest.LowerRightCorner.Y = kart.viewport.LowerRightCorner.Y
      ∧ dest.getWidth = kart.viewport.getHeight
      ∧ dest.UpperLeftCorner.X = kart.viewport.UpperLeftCorner.X
          + Int.tdiv kart.viewport.getWidth 2 - Int.tdiv kart.viewport.getHeight 2
      ∧ (dest.UpperLeftCorner.X + dest.LowerRightCorner.X)
          - (kart.viewport.UpperLeftCorner.X + kart.viewport.LowerRightCorner.X)
          = Int.tmod kart.viewport.getHeight 2 - Int.tmod kart.viewport.getWidth 2
      ∧ (0 ≤ kart.viewport.getWidth → kart.viewport.getWidth ≤ kart.viewport.getHeight →
          dest.UpperLeftCorner.X ≤ kart.viewport.UpperLeftCorner.X
          ∧ kart.viewport.LowerRightCorner.X ≤ dest.LowerRightCorner.X) := by
  have hw := tdiv_two_add_tmod kart.viewport.getWidth
  have hh := tdiv_two_add_tmod kart.viewport.getHeight
  have hdraws : ∃ rest, (gui.renderPlayerView world fonts kart).2 =
      plungerDraw kart.viewport :: rest := by
    refine ⟨(gui.renderPlayerView world fonts kart).2.tail, ?_⟩
    unfold MinimalRaceGUI.renderPlayerView
    by_cases hr : world.isRacePhase = true
    · simp only [hon, hblocked, hr, Bool.not_true, Bool.false_eq_true, if_false,
        if_true, List.append_assoc, List.singleton_append, List.cons_append, List.tail_cons]
    · have hr' : world.isRacePhase = false := by simpa using hr
      simp only [hon, hblocked, hr', Bool.not_true, Bool.not_false,
        Bool.false_eq_true, if_false, if_true, List.singleton_append, List.cons_append, List.tail_cons]
  obtain ⟨rest, hrest⟩ := hdraws
  refine ⟨recti.ofCoords
      (kart.viewport.UpperLeftCorner.X
        + Int.tdiv (kart.viewport.LowerRightCorner.X - kart.viewport.UpperLeftCorner.X) 2
        - Int.tdiv (kart.viewport.LowerRightCorner.Y - kart.viewport.UpperLeftCorner.Y) 2)
      kart.viewport.UpperLeftCorner.Y
      (kart.viewport.UpperLeftCorner.X
        + Int.tdiv (kart.viewport.LowerRightCorner.X - kart.viewport.UpperLeftCorner.X) 2
        - Int.tdiv (kart.viewport.LowerRightCorner.Y - kart.viewport.UpperLeftCorner.Y) 2
        + (kart.viewport.LowerRightCorner.Y - kart.viewport.UpperLeftCorner.Y))
      (kart.viewport.UpperLeftCorner.Y
        + (kart.viewport.LowerRightCorner.Y - kart.viewport.UpperLeftCorner.Y)),
    rest, hrest, rfl, ?_, ?_, rfl, ?_, ?_⟩
  · simp only [recti.ofCoords]
    ring
  · simp only [recti.ofCoords, recti.getWidth, recti.getHeight]
    ring
  · simp only [recti.ofCoords, recti.getWidth, recti.getHeight] at hw hh ⊢
    linarith
  · intro h0 hle
    have h1 := tdiv_two_le _ _ h0 hle
    simp only [recti.ofCoords, recti.getWidth, recti.getHeight] at hw hh h0 hle h1 ⊢
    have hw0 : 0 ≤ Int.tmod (kart.viewport.LowerRightCorner.X
        - kart.viewport.UpperLeftCorner.X) 2 := Int.tmod_nonneg _ h0
    have hh1 : Int.tmod (kart.viewport.LowerRightCorner.Y
        - kart.viewport.UpperLeftCorner.Y) 2 < 2 :=
      Int.tmod_lt_of_pos _ (by norm_num)
    have hh0 : 0 ≤ Int.tmod (kart.viewport.LowerRightCorner.Y
        - kart.viewport.UpperLeftCorner.Y) 2 := Int.tmod_nonneg _ (le_trans h0 hle)
    have hw1 : Int.tmod (kart.viewport.LowerRightCorner.X
        - kart.viewport.UpperLeftCorner.X) 2 < 2 :=
      Int.tmod_lt_of_pos _ (by norm_num)
    constructor
    · linarith
    · omega

/-- Witness of C17, amended: an obstructed view in a 600x600 viewport, which
the face icon covers. -/
theorem plunger_overlay_witness :
    exampleGUI.m_enabled = true
    ∧ ({ exampleKart with hasViewBlockedByPlunger := true,
                           viewport := recti.ofCoords 0 0 600 600 } : Kart).hasViewBlockedByPlunger
        = true
    ∧ ∃ dest rest,
        (exampleGUI.renderPlayerView (exampleWorld 1 800 600) exampleFonts
          { exampleKart with hasViewBlockedByPlunger := true,
                             viewport := recti.ofCoords 0 0 600 600 }).2 =
          DrawCall.draw2DImage Texture.plunger_face dest SourceRect.whole none none true :: rest
        ∧ dest.UpperLeftCorner.Y = 0 ∧ dest.LowerRightCorner.Y = 600
        ∧ dest.UpperLeftCorner.X ≤ 0 ∧ 600 ≤ dest.LowerRightCorner.X := by
  refine ⟨rfl, rfl, ?_⟩
  obtain ⟨dest, rest, h1, h2, h3, -, -, -, h7⟩ :=
    plunger_overlay exampleGUI (exampleWorld 1 800 600) exampleFonts
      { exampleKart with hasViewBlockedByPlunger := true,
                         viewport := recti.ofCoords 0 0 600 600 } rfl rfl
  exact ⟨dest, rest, h1, h2, h3, (h7 (by decide) (by decide)).1, (h7 (by decide) (by decide)).2⟩

/-! ## Theorems: the cells of the marker atlas -/

end STK
